import Mathlib

/-!
Verification of the CelebrationMosaic application core3 (src/app.py):
settings loading and default-merging, grid position allocation, submission
validation and ledger retention, color-scheme upload, settings update and
symbol management.  Python dictionaries parsed from JSON are modelled as
association lists over a JSON value type; machine behaviour (strip, len,
truthiness, dict assignment) follows Python semantics.
-/

/-- A JSON value, the universe of data `json.load` can produce in the
settings and entries documents (floats do not occur in any document the
application writes; integers model all numbers involved). -/
inductive Value where
  | null : Value
  | bool : Bool → Value
  | int : Int → Value
  | str : String → Value
  | list : List Value → Value
  | obj : List (String × Value) → Value
  deriving Repr

/-- A JSON object / Python dict: ordered association list, as parsed JSON
keeps insertion order. -/
abbrev Doc := List (String × Value)

/-- Python `key in d` for a dict. -/
def dictContains (d : Doc) (k : String) : Bool :=
  d.any (fun kv => kv.1 = k)

/-- Python `d[key]` for a dict (first binding wins; parsed JSON has unique
keys). -/
def dictLookup (d : Doc) (k : String) : Option Value :=
  (d.find? (fun kv => kv.1 = k)).map (·.2)

/-- Python `d[key] = v`: replace the value at `key` keeping its place if
present, otherwise append the new binding at the end. -/
def dictSet (d : Doc) (k : String) (v : Value) : Doc :=
  if dictContains d k then
    d.map (fun kv => if kv.1 = k then (k, v) else kv)
  else
    d ++ [(k, v)]

/-- Python truthiness of a JSON value (`not settings[key]`): `None`,
`False`, `0`, `""`, `[]` and `{}` are falsy. -/
def valueFalsy : Value → Bool
  | .null => true
  | .bool b => !b
  | .int n => n = 0
  | .str s => s = ""
  | .list l => l.isEmpty
  | .obj d => d.isEmpty

/-- The `default_settings` dictionary of `load_admin_settings`
(src/app.py lines 53-101), transcribed key by key. -/
def default_settings : Doc :=
  [ ("logo_filename", .str "logo.png"),
    ("short_logo_filename", .str "logo_20250902_001306.png"),
    ("header_text", .str "Happy Diwali"),
    ("max_entries", .int 50),
    ("celebration_animations", .list
      [.str "confetti", .str "fireworks", .str "diwali",
       .str "sparkle-rain", .str "flower-burst", .str "rangoli"]),
    ("color_scheme", .obj
      [ ("submission_page", .obj
          [ ("background", .str "#000000"),
            ("text", .str "#ffffff"),
            ("heading_text", .str "#ffcc00"),
            ("form_background", .str "#1a1a1a"),
            ("form_border", .str "#333333"),
            ("input_background", .str "#2a2a2a"),
            ("input_text", .str "#ffffff"),
            ("input_border", .str "#404040"),
            ("input_focus_border", .str "#ffcc00"),
            ("label_text", .str "#cccccc"),
            ("button_primary_bg", .str "#ffcc00"),
            ("button_primary_text", .str "#000000"),
            ("button_primary_hover_bg", .str "#ffd633"),
            ("button_secondary_bg", .str "#404040"),
            ("button_secondary_text", .str "#ffffff"),
            ("button_secondary_hover_bg", .str "#4d4d4d"),
            ("alert_success_bg", .str "#28a745"),
            ("alert_success_text", .str "#ffffff"),
            ("alert_error_bg", .str "#dc3545"),
            ("alert_error_text", .str "#ffffff"),
            ("symbol_selector_bg", .str "#2a2a2a"),
            ("symbol_selector_border", .str "#404040"),
            ("symbol_selector_active", .str "#ffcc00") ]),
        ("mosaic_page", .obj
          [ ("background", .str "#000000"),
            ("text", .str "#ffffff"),
            ("tile_background", .str "#333333"),
            ("tile_text", .str "#ffffff"),
            ("tile_border", .str "#ffcc00") ]) ]),
    ("grid_mode", .str "auto"),
    ("grid_rows", .int 10),
    ("grid_cols", .int 12),
    ("symbols", .list
      [.obj [("filename", .str "diya.png"), ("label", .str "Diya")],
       .obj [("filename", .str "cracker.png"), ("label", .str "Cracker")],
       .obj [("filename", .str "rocket.png"), ("label", .str "Rocket")]]) ]

/-- One iteration of the key-reconciliation loop of `load_admin_settings`
(src/app.py lines 106-112): inject a missing default key; additionally, a
`celebration_animations` key that is present but falsy (e.g. the empty
list) is overwritten with its default value. -/
def mergeStep (acc : Doc) (kv : String × Value) : Doc :=
  if dictContains acc kv.1 then
    if kv.1 = "celebration_animations" ∧
        (dictLookup acc kv.1).all valueFalsy then
      dictSet acc kv.1 kv.2
    else acc
  else dictSet acc kv.1 kv.2

/-- The whole reconciliation loop of `load_admin_settings` applied to a
successfully parsed settings document: `for key, value in
default_settings.items(): ...` (src/app.py lines 106-112). -/
def mergeDefaults (d : Doc) : Doc :=
  default_settings.foldl mergeStep d

/-- `load_admin_settings` (src/app.py lines 51-116) as a function of the
persisted file state: `none` models an absent or unparsable
`admin_settings.json`, `some d` a file parsing to document `d`.  Returns
the settings document handed to the caller together with the file state
after the call (the defaults are persisted only on the failure path). -/
def load_admin_settings (file : Option Doc) : Doc × Option Doc :=
  match file with
  | some d => (mergeDefaults d, some d)
  | none => (default_settings, some default_settings)

/-- Characters removed by Python `str.strip()` with no argument (the
ASCII whitespace characters; no document in this application carries
non-ASCII whitespace). -/
def isPySpace (c : Char) : Bool :=
  c = ' ' ∨ c = '\t' ∨ c = '\n' ∨ c = '\r' ∨ c = '\x0b' ∨ c = '\x0c'

/-- Python `s.strip()`: remove leading and trailing whitespace. -/
def pyStrip (s : String) : String :=
  ⟨((s.data.dropWhile isPySpace).reverse.dropWhile isPySpace).reverse⟩

/-- One record of `data.json` as the application writes it in `submit`
(src/app.py lines 172-179); `position` is optional because
`get_available_positions` tolerates records without a `position` key. -/
structure Entry where
  id : String
  name : String
  message : String
  symbol : String
  timestamp : String
  position : Option Nat
  deriving DecidableEq, Repr

/-- `get_available_positions` (src/app.py lines 36-49) for a fixed
settings snapshot: the positions of `[0, rows*cols)` not used by any
entry of the ledger. -/
def get_available_positions (rows cols : Nat) (data : List Entry) : List Nat :=
  (List.range (rows * cols)).filter
    (fun pos => !(data.any (fun e => e.position == some pos)))

/-- Python `data[-k:]` for `k ≥ 0`: the last `k` elements, except that
`data[-0:]` is the whole list. -/
def pyTakeLast (k : Nat) (l : List Entry) : List Entry :=
  if k = 0 then l else l.drop (l.length - k)

/-- Outcome of the `submit` route: the flashed error, or success carrying
the entry that was appended (the spec's `Result<Entry, ValidationError>`
view of the route). -/
inductive SubmitResult where
  | ok (e : Entry)
  | errRequired
  | errNameLong
  | errMsgLong
  | errBadSymbol
  | errFull
  deriving DecidableEq, Repr

/-- The `submit` route (src/app.py lines 133-198) under a fixed settings
snapshot: `rows = settings['grid_rows']`, `cols = settings['grid_cols']`,
`maxEntries = settings.get('max_entries', 50)`, `cat = [s['filename'] for
s in settings['symbols']]`.  `pick` models `random.choice` (the theorems
assume only that it returns a member of a non-empty list), `now` the
timestamp string.  Returns the outcome and the ledger persisted by the
call (unchanged on every error path). -/
def submit (rows cols maxEntries : Nat) (cat : List String)
    (pick : List Nat → Nat) (now : String)
    (name message symbol : String) (data : List Entry) :
    SubmitResult × List Entry :=
  let name := pyStrip name
  let message := pyStrip message
  let symbol := pyStrip symbol
  if name = "" ∨ message = "" ∨ symbol = "" then (.errRequired, data)
  else if name.length > 50 then (.errNameLong, data)
  else if message.length > 200 then (.errMsgLong, data)
  else if symbol ∉ cat then (.errBadSymbol, data)
  else
    let available := get_available_positions rows cols data
    if available = [] then (.errFull, data)
    else
      let position := pick available
      let new_entry : Entry :=
        { id := "tile-" ++ toString (position + 1)
          name := name
          message := message
          symbol := symbol
          timestamp := now
          position := some position }
      let data := data ++ [new_entry]
      let data :=
        if data.length > maxEntries then pyTakeLast maxEntries data
        else data
      (.ok new_entry, data)

/-- `clear_entries` (src/app.py lines 464-474): `save_data([])`. -/
def clear_entries (_data : List Entry) : List Entry := []

/-- One call to the `submit` route in a trace: the form fields, the
timestamp, and the behaviour of `random.choice` during that call. -/
structure SubmitOp where
  now : String
  pick : List Nat → Nat
  name : String
  message : String
  symbol : String

/-- `pick` faithfully models `random.choice`: on a non-empty list it
returns one of its members. -/
def PickOk (pick : List Nat → Nat) : Prop :=
  ∀ l : List Nat, l ≠ [] → pick l ∈ l

/-- Run a sequence of `submit` calls against the ledger, returning the
final ledger. -/
def runSubmits (rows cols maxEntries : Nat) (cat : List String)
    (ops : List SubmitOp) (data : List Entry) : List Entry :=
  ops.foldl
    (fun d op =>
      (submit rows cols maxEntries cat op.pick op.now
        op.name op.message op.symbol d).2)
    data

/-- The positions carried by the entries of a ledger (the multiset the
code collects into `used_positions`). -/
def positionsOf (data : List Entry) : List Nat :=
  data.filterMap Entry.position

/-- The grid invariant: the positions carried by live entries are
pairwise distinct and all lie in `[0, total)`. -/
def PosDistinct (total : Nat) (data : List Entry) : Prop :=
  (positionsOf data).Nodup ∧ ∀ p ∈ positionsOf data, p < total

/-- Every live entry carries a position (true of every ledger produced
from the empty one by `submit`). -/
def AllPositioned (data : List Entry) : Prop :=
  ∀ e ∈ data, e.position.isSome

/-- One `submit` call, tracking both the persisted ledger and the history
of all successfully appended entries. -/
def histStep (rows cols maxEntries : Nat) (cat : List String)
    (st : List Entry × List Entry) (op : SubmitOp) :
    List Entry × List Entry :=
  let r := submit rows cols maxEntries cat op.pick op.now
    op.name op.message op.symbol st.1
  match r.1 with
  | .ok e => (r.2, st.2 ++ [e])
  | _ => (r.2, st.2)

/-- Run a sequence of `submit` calls, tracking the ledger together with
the history of appended entries. -/
def runHist (rows cols maxEntries : Nat) (cat : List String)
    (ops : List SubmitOp) (st : List Entry × List Entry) :
    List Entry × List Entry :=
  ops.foldl (histStep rows cols maxEntries cat) st

/-- `random.choice` modelled as taking the head of the available list:
satisfies the membership contract. -/
def headPick : List Nat → Nat := fun l => l.headD 0

/-- Discriminator for a successful submission. -/
def SubmitResult.isOk : SubmitResult → Bool
  | .ok _ => true
  | _ => false

/-- The `new_entry` record built by a successful `submit`
(src/app.py lines 172-179), as a function of the inputs. -/
def submittedEntry (rows cols : Nat) (pick : List Nat → Nat)
    (now name message symbol : String) (data : List Entry) : Entry :=
  { id := "tile-" ++ toString (pick (get_available_positions rows cols data) + 1)
    name := pyStrip name
    message := pyStrip message
    symbol := pyStrip symbol
    timestamp := now
    position := some (pick (get_available_positions rows cols data)) }

/-- The default value of `celebration_animations` (src/app.py line 58). -/
def celAnimsDefault : Value :=
  .list [.str "confetti", .str "fireworks", .str "diwali",
    .str "sparkle-rain", .str "flower-burst", .str "rangoli"]

/-- The default keys processed before `celebration_animations`. -/
def defaultsPre : Doc :=
  [ ("logo_filename", .str "logo.png"),
    ("short_logo_filename", .str "logo_20250902_001306.png"),
    ("header_text", .str "Happy Diwali"),
    ("max_entries", .int 50) ]

/-- The default keys processed after `celebration_animations`. -/
def defaultsPost : Doc :=
  default_settings.drop 5

/-- The merged document's `celebration_animations` value is truthy. -/
def CelGood (acc : Doc) : Prop :=
  (dictLookup acc "celebration_animations").all valueFalsy = false

/-- Discriminator: is the value the empty JSON list? -/
def valueIsEmptyList : Value → Bool
  | .list [] => true
  | _ => false

/-- The animation names accepted by `update_settings`
(src/app.py line 370). -/
def valid_animations : List String :=
  ["confetti", "fireworks", "diwali", "sparkle-rain", "flower-burst",
   "rangoli"]

/-- The form fields read by `update_settings`: `request.form.get(...,
type=int)` yields `none` for a missing or unparsable field. -/
structure UpdateForm where
  header_text : String
  max_entries : Option Int
  grid_mode : String
  grid_rows : Option Int
  grid_cols : Option Int
  celebration_animations : List String

/-- `header_text` update of `update_settings` (src/app.py lines 342-344). -/
def upd_header (ht : String) (s : Doc) : Doc :=
  if pyStrip ht ≠ "" then dictSet s "header_text" (.str (pyStrip ht)) else s

/-- `max_entries` update of `update_settings` (src/app.py lines 347-349):
set only when the parsed value is truthy and positive. -/
def upd_max (me : Option Int) (s : Doc) : Doc :=
  match me with
  | some m => if m ≠ 0 ∧ m > 0 then dictSet s "max_entries" (.int m) else s
  | none => s

/-- `grid_mode` update of `update_settings` (src/app.py lines 352-353). -/
def upd_mode (gm : String) (s : Doc) : Doc :=
  dictSet s "grid_mode" (.str gm)

/-- `grid_rows` update (src/app.py lines 356-360): truthy, positive, at
most 50. -/
def upd_rows (gr : Option Int) (s : Doc) : Doc :=
  match gr with
  | some r =>
      if r ≠ 0 ∧ r > 0 ∧ r ≤ 50 then dictSet s "grid_rows" (.int r) else s
  | none => s

/-- `grid_cols` update (src/app.py lines 357-362). -/
def upd_cols (gc : Option Int) (s : Doc) : Doc :=
  match gc with
  | some c =>
      if c ≠ 0 ∧ c > 0 ∧ c ≤ 50 then dictSet s "grid_cols" (.int c) else s
  | none => s

/-- The grid block of `update_settings` (src/app.py lines 355-362): rows
and columns are touched only in `manual` mode. -/
def upd_grid (gm : String) (gr gc : Option Int) (s : Doc) : Doc :=
  if gm = "manual" then upd_cols gc (upd_rows gr s) else s

/-- Animation update of `update_settings` (src/app.py lines 365-372):
default to `confetti` when none submitted, filter against the valid
list. -/
def upd_anims (ca : List String) (s : Doc) : Doc :=
  let anims := if ca = [] then ["confetti"] else ca
  dictSet s "celebration_animations"
    (.list ((anims.filter (fun a => a ∈ valid_animations)).map .str))

/-- The `update_settings` route (src/app.py lines 335-381) acting on the
loaded settings document, as the composition of its statements in source
order. -/
def update_settings (f : UpdateForm) (s : Doc) : Doc :=
  upd_anims f.celebration_animations
    (upd_grid f.grid_mode f.grid_rows f.grid_cols
      (upd_mode f.grid_mode
        (upd_max f.max_entries
          (upd_header f.header_text s))))

/-- The numeric bounds invariant of the settings document:
`max_entries > 0`, `1 ≤ grid_rows ≤ 50`, `1 ≤ grid_cols ≤ 50`. -/
def SettingsBounds (s : Doc) : Prop :=
  (∃ m : Int, dictLookup s "max_entries" = some (.int m) ∧ 0 < m) ∧
    (∃ r : Int, dictLookup s "grid_rows" = some (.int r) ∧ 1 ≤ r ∧ r ≤ 50) ∧
    ∃ c : Int, dictLookup s "grid_cols" = some (.int c) ∧ 1 ≤ c ∧ c ≤ 50

/-- Python `s.lower()` (ASCII). -/
def pyLower (s : String) : String :=
  ⟨s.data.map Char.toLower⟩

/-- Python `s.endswith(suffix)`. -/
def strEndsWith (s suffix : String) : Bool :=
  suffix.data.isSuffixOf s.data

/-- `[s['filename'] for s in settings['symbols']]` (src/app.py line 156):
the filenames of the symbol catalog (catalog entries that are not
objects with a string `filename` carry no filename). -/
def symbolFilenames (settings : Doc) : List String :=
  match dictLookup settings "symbols" with
  | some (.list l) =>
      l.filterMap (fun v =>
        match v with
        | .obj o =>
            match dictLookup o "filename" with
            | some (.str s) => some s
            | _ => none
        | _ => none)
  | _ => []

/-- Outcome of the `add_symbol` route: the updated, persisted settings,
or an error flash leaving the settings untouched. -/
inductive AddSymbolResult where
  | ok (settings : Doc)
  | err
  deriving Repr

/-- The `add_symbol` route (src/app.py lines 383-425): `hasFilePart`
models `'symbol_file' in request.files`, `origFilename` the uploaded
file's name, `genFilename` the timestamped name
`secure_filename(f"symbol_{...}.png")` generated on the server.  On
success the generated entry is appended to `settings['symbols']`
unconditionally — the route never compares `genFilename` against the
catalog. -/
def add_symbol (hasFilePart : Bool) (origFilename label genFilename : String)
    (settings : Doc) : AddSymbolResult :=
  if !hasFilePart then .err
  else
    let label := pyStrip label
    if origFilename = "" ∨ label = "" then .err
    else if !(strEndsWith (pyLower origFilename) ".png") then .err
    else
      match dictLookup settings "symbols" with
      | some (.list l) =>
          .ok (dictSet settings "symbols"
            (.list (l ++ [.obj [("filename", .str genFilename),
              ("label", .str label)]])))
      | _ => .err

/-- The required top-level sections of an uploaded color scheme
(src/app.py line 250). -/
def required_sections : List String :=
  ["submission_page", "mosaic_page"]

/-- The required `submission_page` fields (src/app.py line 251). -/
def required_submission_fields : List String :=
  ["background", "text", "button", "button_text"]

/-- The required `mosaic_page` fields (src/app.py line 252). -/
def required_mosaic_fields : List String :=
  ["background", "text", "tile_background", "tile_text", "tile_border"]

/-- The hex-color test of src/app.py line 272:
`color.startswith('#') and all(c in '0123456789ABCDEFabcdef' for c in
color[1:])`. -/
def isHexColorStr (s : String) : Bool :=
  match s.data with
  | '#' :: rest =>
      rest.all (fun c => "0123456789ABCDEFabcdef".data.contains c)
  | _ => false

/-- Python `needle in hay` for strings: substring test. -/
def pyIsSubstring (needle hay : String) : Bool :=
  (List.range (hay.data.length + 1)).any
    (fun i => needle.data.isPrefixOf (hay.data.drop i))

/-- Python `s in v` for a JSON value: key test on dicts, membership on
lists, substring test on strings; `none` models the `TypeError` raised
on other types (caught by the route's outer handler). -/
def pyIn (s : String) : Value → Option Bool
  | .obj kvs => some (dictContains kvs s)
  | .list xs => some (xs.any (fun v =>
      match v with
      | .str t => t = s
      | _ => false))
  | .str t => some (pyIsSubstring s t)
  | _ => none

/-- Python `v[k]` with a string key: `none` models the exception raised
when `v` is not a dict (or the key is missing). -/
def pyGetItem (v : Value) (k : String) : Option Value :=
  match v with
  | .obj kvs => dictLookup kvs k
  | _ => none

/-- Python `v.values()`: `none` models the `AttributeError` raised when
`v` is not a dict. -/
def pyValues : Value → Option (List Value)
  | .obj kvs => some (kvs.map (·.2))
  | _ => none

/-- `color.startswith('#') ...` evaluated on a JSON value: a non-string
raises (`none`). -/
def isHexColorVal : Value → Option Bool
  | .str s => some (isHexColorStr s)
  | _ => none

/-- `all(k in v for k in keys)` with Python's short-circuiting. -/
def checkAll (keys : List String) (v : Value) : Option Bool :=
  match keys with
  | [] => some true
  | k :: rest =>
      match pyIn k v with
      | none => none
      | some false => some false
      | some true => checkAll rest v

/-- The inner color loop of src/app.py lines 271-274 over one section's
values: `some false` is the flashed format error, `none` an exception. -/
def checkColorList (colors : List Value) : Option Bool :=
  match colors with
  | [] => some true
  | c :: rest =>
      match isHexColorVal c with
      | none => none
      | some false => some false
      | some true => checkColorList rest

/-- The outer color loop of src/app.py lines 270-274 over all
sections. -/
def checkSections (secs : List Value) : Option Bool :=
  match secs with
  | [] => some true
  | sec :: rest =>
      match pyValues sec with
      | none => none
      | some colors =>
          match checkColorList colors with
          | none => none
          | some false => some false
          | some true => checkSections rest

/-- The validation sequence of `upload_color_scheme` (src/app.py lines
249-274) on the parsed upload: `some true` reaches the save, `some
false` is a flashed validation error, `none` an exception caught by the
outer handler — both failure modes leave the settings untouched. -/
def upload_checks (cs : Value) : Option Bool :=
  match checkAll required_sections cs with
  | none => none
  | some false => some false
  | some true =>
      match pyGetItem cs "submission_page" with
      | none => none
      | some sub =>
          match checkAll required_submission_fields sub with
          | none => none
          | some false => some false
          | some true =>
              match pyGetItem cs "mosaic_page" with
              | none => none
              | some mos =>
                  match checkAll required_mosaic_fields mos with
                  | none => none
                  | some false => some false
                  | some true =>
                      match pyValues cs with
                      | none => none
                      | some secs => checkSections secs

/-- Does the uploaded document reach `save_admin_settings`? -/
def color_scheme_ok (cs : Value) : Bool :=
  (upload_checks cs).getD false

/-- The settings document persisted after the `upload_color_scheme`
route (src/app.py lines 231-291) runs on upload `cs`: the stored color
scheme is replaced only when every check passes; on any validation error
or exception nothing is written. -/
def upload_color_scheme (cs : Value) (settings : Doc) : Doc :=
  if color_scheme_ok cs then dictSet settings "color_scheme" cs
  else settings

/-- A value that passes the hex-color test: a string of the accepted
shape. -/
def isHexValue : Value → Bool
  | .str s => isHexColorStr s
  | _ => false

/-- A well-formed section: a JSON object all of whose values pass the
hex-color test. -/
def isGoodSection : Value → Bool
  | .obj sec => sec.all (fun kv => isHexValue kv.2)
  | _ => false

/-- Modelled from the spec (§4.1): a structurally complete color-scheme
document — required top-level sections present, required fields present
within each, every value in every section a `#`-prefixed hex string. -/
def specGoodColorScheme (cs : Value) : Bool :=
  match cs with
  | .obj sections =>
      match dictLookup sections "submission_page" with
      | some (.obj sub) =>
          match dictLookup sections "mosaic_page" with
          | some (.obj mos) =>
              required_submission_fields.all (fun k => dictContains sub k) &&
                (required_mosaic_fields.all (fun k => dictContains mos k) &&
                  sections.all (fun kv => isGoodSection kv.2))
          | _ => false
      | _ => false
  | _ => false

/-- A complete, all-hex sample upload used to witness C9. -/
def sampleColorScheme : Value :=
  .obj
    [("submission_page", .obj
      [("background", .str "#000000"), ("text", .str "#ffffff"),
       ("button", .str "#ffcc00"), ("button_text", .str "#000000")]),
     ("mosaic_page", .obj
      [("background", .str "#000000"), ("text", .str "#fff"),
       ("tile_background", .str "#333333"), ("tile_text", .str "#ffffff"),
       ("tile_border", .str "#ffcc00")])]

theorem mem_get_available_positions {rows cols : Nat} {data : List Entry}
    {p : Nat} :
    p ∈ get_available_positions rows cols data ↔
      p < rows * cols ∧ p ∉ positionsOf data := by
  simp [get_available_positions, positionsOf, List.mem_filter,
    List.mem_range, List.mem_filterMap, List.any_eq_true]

theorem positionsOf_append (l₁ l₂ : List Entry) :
    positionsOf (l₁ ++ l₂) = positionsOf l₁ ++ positionsOf l₂ :=
  List.filterMap_append l₁ l₂ _

theorem PosDistinct.sublist {total : Nat} {l₁ l₂ : List Entry}
    (hs : l₁.Sublist l₂) (h : PosDistinct total l₂) : PosDistinct total l₁ := by
  obtain ⟨hn, hb⟩ := h
  have hps := List.Sublist.filterMap Entry.position hs
  exact ⟨hn.sublist hps, fun p hp => hb p (hps.mem hp)⟩

theorem PosDistinct.append_fresh {total : Nat} {data : List Entry}
    {e : Entry} {p : Nat} (h : PosDistinct total data)
    (hpe : e.position = some p) (hlt : p < total)
    (hnm : p ∉ positionsOf data) : PosDistinct total (data ++ [e]) := by
  obtain ⟨hn, hb⟩ := h
  have hps : positionsOf (data ++ [e]) = positionsOf data ++ [p] := by
    rw [positionsOf_append]
    simp [positionsOf, hpe]
  constructor
  · rw [hps]
    simp [List.nodup_append, hn, hnm]
  · rw [hps]
    intro q hq
    rcases List.mem_append.mp hq with hq | hq
    · exact hb q hq
    · simp at hq
      omega

theorem pyTakeLast_sublist (k : Nat) (l : List Entry) :
    (pyTakeLast k l).Sublist l := by
  unfold pyTakeLast
  split
  · exact List.Sublist.refl l
  · exact List.drop_sublist _ l

theorem submit_snd_cases (rows cols maxEntries : Nat) (cat : List String)
    (pick : List Nat → Nat) (now name message symbol : String)
    (data : List Entry) (hpick : PickOk pick) :
    (submit rows cols maxEntries cat pick now name message symbol data).2 = data ∨
    ∃ p, p ∈ get_available_positions rows cols data ∧
      ∃ e : Entry, e.position = some p ∧
        (submit rows cols maxEntries cat pick now name message symbol data).2.Sublist
          (data ++ [e]) := by
  simp only [submit]
  split
  · exact Or.inl rfl
  split
  · exact Or.inl rfl
  split
  · exact Or.inl rfl
  split
  · exact Or.inl rfl
  split
  · exact Or.inl rfl
  next hav =>
    right
    refine ⟨pick (get_available_positions rows cols data), hpick _ hav,
      ⟨{ id := "tile-" ++ toString (pick (get_available_positions rows cols data) + 1),
         name := pyStrip name, message := pyStrip message,
         symbol := pyStrip symbol, timestamp := now,
         position := some (pick (get_available_positions rows cols data)) },
       rfl, ?_⟩⟩
    split
    · exact pyTakeLast_sublist _ _
    · exact List.Sublist.refl _

theorem submit_ok_or_err (rows cols maxEntries : Nat) (cat : List String)
    (pick : List Nat → Nat) (now name message symbol : String)
    (data : List Entry) (hpick : PickOk pick) :
    (∃ e, (submit rows cols maxEntries cat pick now name message symbol data).1 = .ok e ∧
      (submit rows cols maxEntries cat pick now name message symbol data).2 =
        (if (data ++ [e]).length > maxEntries then pyTakeLast maxEntries (data ++ [e])
         else data ++ [e]) ∧
      ∃ p, p ∈ get_available_positions rows cols data ∧ e.position = some p) ∨
    ((∀ e, (submit rows cols maxEntries cat pick now name message symbol data).1 ≠ .ok e) ∧
      (submit rows cols maxEntries cat pick now name message symbol data).2 = data) := by
  simp only [submit]
  split
  · exact Or.inr ⟨fun e => by simp, rfl⟩
  split
  · exact Or.inr ⟨fun e => by simp, rfl⟩
  split
  · exact Or.inr ⟨fun e => by simp, rfl⟩
  split
  · exact Or.inr ⟨fun e => by simp, rfl⟩
  split
  · exact Or.inr ⟨fun e => by simp, rfl⟩
  next hav =>
    left
    exact ⟨_, rfl, rfl, pick (get_available_positions rows cols data),
      hpick _ hav, rfl⟩

theorem submit_preserves_PosDistinct (rows cols maxEntries : Nat)
    (cat : List String) (pick : List Nat → Nat)
    (now name message symbol : String) (data : List Entry)
    (hpick : PickOk pick) (h : PosDistinct (rows * cols) data) :
    PosDistinct (rows * cols)
      (submit rows cols maxEntries cat pick now name message symbol data).2 := by
  rcases submit_snd_cases rows cols maxEntries cat pick now name message symbol
      data hpick with heq | ⟨p, hav, e, hpe, hsub⟩
  · rw [heq]; exact h
  · have hm := mem_get_available_positions.mp hav
    exact PosDistinct.sublist hsub (h.append_fresh hpe hm.1 hm.2)

theorem submit_preserves_AllPositioned (rows cols maxEntries : Nat)
    (cat : List String) (pick : List Nat → Nat)
    (now name message symbol : String) (data : List Entry)
    (hpick : PickOk pick) (h : AllPositioned data) :
    AllPositioned
      (submit rows cols maxEntries cat pick now name message symbol data).2 := by
  rcases submit_snd_cases rows cols maxEntries cat pick now name message symbol
      data hpick with heq | ⟨p, hav, e, hpe, hsub⟩
  · rw [heq]; exact h
  · intro x hx
    rcases List.mem_append.mp (hsub.mem hx) with h1 | h1
    · exact h x h1
    · have : x = e := by simpa using h1
      rw [this, hpe]
      rfl

theorem runSubmits_PosDistinct (rows cols maxEntries : Nat)
    (cat : List String) (ops : List SubmitOp) (data : List Entry)
    (hpick : ∀ op ∈ ops, PickOk op.pick)
    (h : PosDistinct (rows * cols) data) :
    PosDistinct (rows * cols) (runSubmits rows cols maxEntries cat ops data) := by
  induction ops generalizing data with
  | nil => simpa [runSubmits] using h
  | cons op ops ih =>
    simp only [runSubmits, List.foldl_cons] at ih ⊢
    exact ih _ (fun o ho => hpick o (List.mem_cons_of_mem _ ho))
      (submit_preserves_PosDistinct _ _ _ _ _ _ _ _ _ _
        (hpick op (List.mem_cons_self _ _)) h)

theorem runSubmits_AllPositioned (rows cols maxEntries : Nat)
    (cat : List String) (ops : List SubmitOp) (data : List Entry)
    (hpick : ∀ op ∈ ops, PickOk op.pick) (h : AllPositioned data) :
    AllPositioned (runSubmits rows cols maxEntries cat ops data) := by
  induction ops generalizing data with
  | nil => simpa [runSubmits] using h
  | cons op ops ih =>
    simp only [runSubmits, List.foldl_cons] at ih ⊢
    exact ih _ (fun o ho => hpick o (List.mem_cons_of_mem _ ho))
      (submit_preserves_AllPositioned _ _ _ _ _ _ _ _ _ _
        (hpick op (List.mem_cons_self _ _)) h)

theorem positionsOf_length (data : List Entry) (h : AllPositioned data) :
    (positionsOf data).length = data.length := by
  induction data with
  | nil => rfl
  | cons e l ih =>
    obtain ⟨p, hp⟩ := Option.isSome_iff_exists.mp (h e (List.mem_cons_self _ _))
    have := ih (fun x hx => h x (List.mem_cons_of_mem _ hx))
    simp [positionsOf, List.filterMap_cons, hp] at this ⊢
    exact this

theorem nodup_bounded_length_le {l : List Nat} {t : Nat} (hn : l.Nodup)
    (hb : ∀ p ∈ l, p < t) : l.length ≤ t := by
  classical
  have h1 : l.toFinset.card = l.length := List.toFinset_card_of_nodup hn
  have h2 : l.toFinset ⊆ Finset.range t := by
    intro x hx
    rw [List.mem_toFinset] at hx
    exact Finset.mem_range.mpr (hb x hx)
  have h3 := Finset.card_le_card h2
  rw [h1, Finset.card_range] at h3
  exact h3

theorem PosDistinct.length_le {total : Nat} {data : List Entry}
    (h : PosDistinct total data) (hall : AllPositioned data) :
    data.length ≤ total := by
  rw [← positionsOf_length data hall]
  exact nodup_bounded_length_le h.1 h.2

theorem histStep_recent (rows cols maxEntries : Nat) (cat : List String)
    (op : SubmitOp) (st : List Entry × List Entry)
    (hmax : 0 < maxEntries) (hpick : PickOk op.pick)
    (hsuf : st.1 <:+ st.2) (hlen : st.1.length = min st.2.length maxEntries) :
    (histStep rows cols maxEntries cat st op).1 <:+
        (histStep rows cols maxEntries cat st op).2 ∧
      (histStep rows cols maxEntries cat st op).1.length =
        min (histStep rows cols maxEntries cat st op).2.length maxEntries := by
  rcases submit_ok_or_err rows cols maxEntries cat op.pick op.now
      op.name op.message op.symbol st.1 hpick with
    ⟨e, h1, h2, -⟩ | ⟨hne, h2⟩
  · have hss : st.1 ++ [e] <:+ st.2 ++ [e] := by
      obtain ⟨t, ht⟩ := hsuf
      exact ⟨t, by rw [← List.append_assoc, ht]⟩
    have hl12 : st.1.length ≤ st.2.length := hsuf.length_le
    simp only [histStep, h1]
    rw [h2]
    split
    next hgt =>
      unfold pyTakeLast
      rw [if_neg (by omega)]
      refine ⟨(List.drop_suffix _ _).trans hss, ?_⟩
      rw [List.length_drop]
      simp only [List.length_append, List.length_singleton] at hgt ⊢
      omega
    next hle =>
      refine ⟨hss, ?_⟩
      simp only [List.length_append, List.length_singleton] at hle ⊢
      omega
  · have hred : histStep rows cols maxEntries cat st op = (st.1, st.2) := by
      unfold histStep
      rcases hr : (submit rows cols maxEntries cat op.pick op.now
          op.name op.message op.symbol st.1).1 with e | _ | _ | _ | _ | _
      · exact absurd hr (hne e)
      all_goals simp [hr, h2]
    rw [hred]
    exact ⟨hsuf, hlen⟩

theorem runHist_recent (rows cols maxEntries : Nat) (cat : List String)
    (ops : List SubmitOp) (st : List Entry × List Entry)
    (hmax : 0 < maxEntries) (hpick : ∀ op ∈ ops, PickOk op.pick)
    (hsuf : st.1 <:+ st.2) (hlen : st.1.length = min st.2.length maxEntries) :
    (runHist rows cols maxEntries cat ops st).1 <:+
        (runHist rows cols maxEntries cat ops st).2 ∧
      (runHist rows cols maxEntries cat ops st).1.length =
        min (runHist rows cols maxEntries cat ops st).2.length maxEntries := by
  induction ops generalizing st with
  | nil => exact ⟨hsuf, hlen⟩
  | cons op ops ih =>
    simp only [runHist, List.foldl_cons] at ih ⊢
    obtain ⟨h1, h2⟩ := histStep_recent rows cols maxEntries cat op st hmax
      (hpick op (List.mem_cons_self _ _)) hsuf hlen
    exact ih _ (fun o ho => hpick o (List.mem_cons_of_mem _ ho)) h1 h2

theorem histStep_fst (rows cols maxEntries : Nat) (cat : List String)
    (st : List Entry × List Entry) (op : SubmitOp) :
    (histStep rows cols maxEntries cat st op).1 =
      (submit rows cols maxEntries cat op.pick op.now
        op.name op.message op.symbol st.1).2 := by
  simp only [histStep]
  rcases hr : (submit rows cols maxEntries cat op.pick op.now
      op.name op.message op.symbol st.1).1 with e | _ | _ | _ | _ | _ <;>
    simp [hr]

theorem runHist_fst (rows cols maxEntries : Nat) (cat : List String)
    (ops : List SubmitOp) (st : List Entry × List Entry) :
    (runHist rows cols maxEntries cat ops st).1 =
      runSubmits rows cols maxEntries cat ops st.1 := by
  induction ops generalizing st with
  | nil => rfl
  | cons op ops ih =>
    simp only [runHist, runSubmits, List.foldl_cons] at ih ⊢
    rw [ih (histStep rows cols maxEntries cat st op), histStep_fst]

theorem PosDistinct_nil (total : Nat) : PosDistinct total [] := by
  constructor <;> simp [positionsOf]

theorem AllPositioned_nil : AllPositioned [] := by
  intro e he
  simp at he

theorem headPick_ok : PickOk headPick := by
  intro l hl
  cases l with
  | nil => exact absurd rfl hl
  | cons a l => simp [headPick]

/-- C2: after any sequence of `submit` operations starting from the empty
ledger under fixed settings with positive `grid_rows`, `grid_cols` and
`max_entries`, the persisted ledger has length at most
`min max_entries (grid_rows * grid_cols)`, and it is exactly the suffix of
the chronological sequence of successfully appended entries of length
`min` (history length) `max_entries` — i.e. the most recently appended
successful entries in insertion order, oldest dropped first. -/
theorem submit_capacity_bound_fifo (rows cols maxEntries : Nat)
    (cat : List String) (ops : List SubmitOp)
    (hrows : 0 < rows) (hcols : 0 < cols) (hmax : 0 < maxEntries)
    (hpick : ∀ op ∈ ops, PickOk op.pick) :
    (runHist rows cols maxEntries cat ops ([], [])).1.length ≤
        min maxEntries (rows * cols) ∧
      (runHist rows cols maxEntries cat ops ([], [])).1 <:+
        (runHist rows cols maxEntries cat ops ([], [])).2 ∧
      (runHist rows cols maxEntries cat ops ([], [])).1.length =
        min (runHist rows cols maxEntries cat ops ([], [])).2.length
          maxEntries := by
  obtain ⟨hsuf, hlen⟩ := runHist_recent rows cols maxEntries cat ops ([], [])
    hmax hpick List.nil_suffix (by simp)
  refine ⟨le_min ?_ ?_, hsuf, hlen⟩
  · rw [hlen]
    exact min_le_right _ _
  · rw [runHist_fst]
    exact PosDistinct.length_le
      (runSubmits_PosDistinct rows cols maxEntries cat ops [] hpick
        (PosDistinct_nil _))
      (runSubmits_AllPositioned rows cols maxEntries cat ops [] hpick
        AllPositioned_nil)

/-- Witness for C2 at a concrete trace: grid 2×1, `max_entries = 1`, two
valid submissions. -/
theorem submit_capacity_bound_fifo_witness :
    (runHist 2 1 1 ["diya.png"]
        [⟨"t1", headPick, "Asha", "Hello", "diya.png"⟩,
         ⟨"t2", headPick, "Ravi", "Hi", "diya.png"⟩] ([], [])).1.length ≤
        min 1 (2 * 1) ∧
      (runHist 2 1 1 ["diya.png"]
        [⟨"t1", headPick, "Asha", "Hello", "diya.png"⟩,
         ⟨"t2", headPick, "Ravi", "Hi", "diya.png"⟩] ([], [])).1 <:+
        (runHist 2 1 1 ["diya.png"]
          [⟨"t1", headPick, "Asha", "Hello", "diya.png"⟩,
           ⟨"t2", headPick, "Ravi", "Hi", "diya.png"⟩] ([], [])).2 ∧
      (runHist 2 1 1 ["diya.png"]
        [⟨"t1", headPick, "Asha", "Hello", "diya.png"⟩,
         ⟨"t2", headPick, "Ravi", "Hi", "diya.png"⟩] ([], [])).1.length =
        min (runHist 2 1 1 ["diya.png"]
          [⟨"t1", headPick, "Asha", "Hello", "diya.png"⟩,
           ⟨"t2", headPick, "Ravi", "Hi", "diya.png"⟩] ([], [])).2.length 1 :=
  submit_capacity_bound_fifo 2 1 1 ["diya.png"]
    [⟨"t1", headPick, "Asha", "Hello", "diya.png"⟩,
     ⟨"t2", headPick, "Ravi", "Hi", "diya.png"⟩]
    (by decide) (by decide) (by decide)
    (by
      intro op hop
      simp only [List.mem_cons, List.mem_singleton] at hop
      rcases hop with h | h | h
      · subst h; exact headPick_ok
      · subst h; exact headPick_ok
      · exact absurd h (by simp))

/-- C3: starting from the empty ledger, the live entries carrying a
position have pairwise-distinct positions, each in
`[0, grid_rows * grid_cols)`; the invariant is preserved by every
`submit` call (including evicting ones) and by `clear_entries`. -/
theorem submit_position_uniqueness (rows cols maxEntries : Nat)
    (cat : List String) (ops : List SubmitOp)
    (hpick : ∀ op ∈ ops, PickOk op.pick) :
    PosDistinct (rows * cols) (runSubmits rows cols maxEntries cat ops []) ∧
      (∀ (data : List Entry) (op : SubmitOp), PickOk op.pick →
        PosDistinct (rows * cols) data →
        PosDistinct (rows * cols)
          (submit rows cols maxEntries cat op.pick op.now
            op.name op.message op.symbol data).2) ∧
      ∀ data : List Entry, PosDistinct (rows * cols) (clear_entries data) := by
  refine ⟨runSubmits_PosDistinct rows cols maxEntries cat ops [] hpick
    (PosDistinct_nil _), ?_, ?_⟩
  · intro data op hp h
    exact submit_preserves_PosDistinct rows cols maxEntries cat op.pick
      op.now op.name op.message op.symbol data hp h
  · intro data
    exact PosDistinct_nil _

/-- Witness for C3 at a concrete trace: grid 1×2, three submissions (the
third exhausts capacity). -/
theorem submit_position_uniqueness_witness :
    PosDistinct (1 * 2)
        (runSubmits 1 2 50 ["diya.png"]
          [⟨"t1", headPick, "Asha", "Hello", "diya.png"⟩,
           ⟨"t2", headPick, "Ravi", "Hi", "diya.png"⟩,
           ⟨"t3", headPick, "Mina", "Yo", "diya.png"⟩] []) ∧
      (∀ (data : List Entry) (op : SubmitOp), PickOk op.pick →
        PosDistinct (1 * 2) data →
        PosDistinct (1 * 2)
          (submit 1 2 50 ["diya.png"] op.pick op.now
            op.name op.message op.symbol data).2) ∧
      ∀ data : List Entry, PosDistinct (1 * 2) (clear_entries data) :=
  submit_position_uniqueness 1 2 50 ["diya.png"]
    [⟨"t1", headPick, "Asha", "Hello", "diya.png"⟩,
     ⟨"t2", headPick, "Ravi", "Hi", "diya.png"⟩,
     ⟨"t3", headPick, "Mina", "Yo", "diya.png"⟩]
    (by
      intro op hop
      simp only [List.mem_cons, List.mem_singleton] at hop
      rcases hop with h | h | h | h
      · subst h; exact headPick_ok
      · subst h; exact headPick_ok
      · subst h; exact headPick_ok
      · exact absurd h (by simp))

theorem submit_eq_errRequired (rows cols maxEntries : Nat) (cat : List String)
    (pick : List Nat → Nat) (now name message symbol : String)
    (data : List Entry)
    (h : pyStrip name = "" ∨ pyStrip message = "" ∨ pyStrip symbol = "") :
    submit rows cols maxEntries cat pick now name message symbol data =
      (.errRequired, data) := by
  simp only [submit]
  rw [if_pos h]

theorem submit_eq_errNameLong (rows cols maxEntries : Nat) (cat : List String)
    (pick : List Nat → Nat) (now name message symbol : String)
    (data : List Entry)
    (hn : pyStrip name ≠ "") (hm : pyStrip message ≠ "")
    (hs : pyStrip symbol ≠ "") (hlong : (pyStrip name).length > 50) :
    submit rows cols maxEntries cat pick now name message symbol data =
      (.errNameLong, data) := by
  simp only [submit]
  rw [if_neg (by simp [hn, hm, hs]), if_pos hlong]

theorem submit_eq_errMsgLong (rows cols maxEntries : Nat) (cat : List String)
    (pick : List Nat → Nat) (now name message symbol : String)
    (data : List Entry)
    (hn : pyStrip name ≠ "") (hm : pyStrip message ≠ "")
    (hs : pyStrip symbol ≠ "") (hnl : (pyStrip name).length ≤ 50)
    (hlong : (pyStrip message).length > 200) :
    submit rows cols maxEntries cat pick now name message symbol data =
      (.errMsgLong, data) := by
  simp only [submit]
  rw [if_neg (by simp [hn, hm, hs]), if_neg (by omega), if_pos hlong]

theorem submit_eq_errFull (rows cols maxEntries : Nat) (cat : List String)
    (pick : List Nat → Nat) (now name message symbol : String)
    (data : List Entry)
    (hn : pyStrip name ≠ "") (hm : pyStrip message ≠ "")
    (hs : pyStrip symbol ≠ "") (hnl : (pyStrip name).length ≤ 50)
    (hml : (pyStrip message).length ≤ 200) (hcat : pyStrip symbol ∈ cat)
    (hav : get_available_positions rows cols data = []) :
    submit rows cols maxEntries cat pick now name message symbol data =
      (.errFull, data) := by
  simp only [submit]
  rw [if_neg (by simp [hn, hm, hs]), if_neg (by omega), if_neg (by omega),
    if_neg (by simp [hcat]), if_pos hav]

theorem submit_eq_ok (rows cols maxEntries : Nat) (cat : List String)
    (pick : List Nat → Nat) (now name message symbol : String)
    (data : List Entry)
    (hn : pyStrip name ≠ "") (hm : pyStrip message ≠ "")
    (hs : pyStrip symbol ≠ "") (hnl : (pyStrip name).length ≤ 50)
    (hml : (pyStrip message).length ≤ 200) (hcat : pyStrip symbol ∈ cat)
    (hav : get_available_positions rows cols data ≠ []) :
    submit rows cols maxEntries cat pick now name message symbol data =
      (.ok (submittedEntry rows cols pick now name message symbol data),
       if (data ++ [submittedEntry rows cols pick now name message symbol data]).length >
          maxEntries then
         pyTakeLast maxEntries
           (data ++ [submittedEntry rows cols pick now name message symbol data])
       else data ++ [submittedEntry rows cols pick now name message symbol data]) := by
  simp only [submit, submittedEntry]
  rw [if_neg (by simp [hn, hm, hs]), if_neg (by omega), if_neg (by omega),
    if_neg (by simp [hcat]), if_neg hav]

/-- C5: for a submission whose trimmed fields are non-empty, within the
length bounds, and whose symbol is in the catalog, `submit` fails with the
distinct mosaic-full error — appending nothing — exactly when the set of
available positions `[0, grid_rows*grid_cols)` minus the occupied ones is
empty; concretely, with a 1×1 grid and `max_entries = 10` a first valid
submission succeeds occupying position 0 and a second fails full. -/
theorem submit_capacity_exhausted (rows cols maxEntries : Nat)
    (cat : List String) (pick : List Nat → Nat)
    (now name message symbol : String) (data : List Entry)
    (hpick : PickOk pick)
    (hn : pyStrip name ≠ "") (hm : pyStrip message ≠ "")
    (hs : pyStrip symbol ≠ "")
    (hnl : (pyStrip name).length ≤ 50) (hml : (pyStrip message).length ≤ 200)
    (hcat : pyStrip symbol ∈ cat) :
    ((submit rows cols maxEntries cat pick now name message symbol data).1 =
        .errFull ↔ get_available_positions rows cols data = []) ∧
      ((submit rows cols maxEntries cat pick now name message symbol data).1 =
          .errFull →
        (submit rows cols maxEntries cat pick now name message symbol data).2 =
          data) ∧
      (submit 1 1 10 ["diya.png"] pick now "Asha" "Hello" "diya.png" []).1.isOk =
        true ∧
      (submit 1 1 10 ["diya.png"] pick now "Asha" "Hello" "diya.png" []).2 =
        [{ id := "tile-1", name := "Asha", message := "Hello",
           symbol := "diya.png", timestamp := now, position := some 0 }] ∧
      (submit 1 1 10 ["diya.png"] pick now "Ravi" "Hi" "diya.png"
          (submit 1 1 10 ["diya.png"] pick now "Asha" "Hello" "diya.png" []).2).1 =
        .errFull := by
  have hp0 : pick [0] = 0 := by simpa using hpick [0] (by simp)
  have hav1 : get_available_positions 1 1 ([] : List Entry) ≠ [] := by decide
  have h1 := submit_eq_ok 1 1 10 ["diya.png"] pick now "Asha" "Hello"
    "diya.png" [] (by decide) (by decide) (by decide) (by decide) (by decide)
    (by decide) hav1
  have he : submittedEntry 1 1 pick now "Asha" "Hello" "diya.png" [] =
      { id := "tile-1", name := "Asha", message := "Hello",
        symbol := "diya.png", timestamp := now, position := some 0 } := by
    simp only [submittedEntry]
    rw [show get_available_positions 1 1 ([] : List Entry) = [0] from rfl, hp0]
    rfl
  rw [he] at h1
  have hled : (submit 1 1 10 ["diya.png"] pick now "Asha" "Hello" "diya.png"
      []).2 =
      [{ id := "tile-1", name := "Asha", message := "Hello",
         symbol := "diya.png", timestamp := now, position := some 0 }] := by
    rw [h1]
    simp
  refine ⟨?_, ?_, ?_, hled, ?_⟩
  · by_cases hav : get_available_positions rows cols data = []
    · rw [submit_eq_errFull rows cols maxEntries cat pick now name message
        symbol data hn hm hs hnl hml hcat hav]
      simp [hav]
    · rw [submit_eq_ok rows cols maxEntries cat pick now name message
        symbol data hn hm hs hnl hml hcat hav]
      simp [hav]
  · intro hfull
    by_cases hav : get_available_positions rows cols data = []
    · rw [submit_eq_errFull rows cols maxEntries cat pick now name message
        symbol data hn hm hs hnl hml hcat hav]
    · rw [submit_eq_ok rows cols maxEntries cat pick now name message
        symbol data hn hm hs hnl hml hcat hav] at hfull
      simp at hfull
  · rw [h1]
    rfl
  · rw [hled]
    have hav2 : get_available_positions 1 1
        [{ id := "tile-1", name := "Asha", message := "Hello",
           symbol := "diya.png", timestamp := now,
           position := some 0 : Entry }] = [] := rfl
    rw [submit_eq_errFull 1 1 10 ["diya.png"] pick now "Ravi" "Hi"
      "diya.png" _ (by decide) (by decide) (by decide) (by decide) (by decide)
      (by decide) hav2]

/-- Witness for C5: the capacity-exhausted equivalence applied on a 3×4
grid with an empty ledger (no position taken, so not full), together with
the concrete 1×1 scenario. -/
theorem submit_capacity_exhausted_witness :
    ((submit 3 4 50 ["diya.png"] headPick "t" "Asha" "Hello" "diya.png"
        []).1 = .errFull ↔ get_available_positions 3 4 [] = []) ∧
      ((submit 3 4 50 ["diya.png"] headPick "t" "Asha" "Hello" "diya.png"
          []).1 = .errFull →
        (submit 3 4 50 ["diya.png"] headPick "t" "Asha" "Hello" "diya.png"
          []).2 = []) ∧
      (submit 1 1 10 ["diya.png"] headPick "t" "Asha" "Hello" "diya.png"
        []).1.isOk = true ∧
      (submit 1 1 10 ["diya.png"] headPick "t" "Asha" "Hello" "diya.png"
        []).2 =
        [{ id := "tile-1", name := "Asha", message := "Hello",
           symbol := "diya.png", timestamp := "t", position := some 0 }] ∧
      (submit 1 1 10 ["diya.png"] headPick "t" "Ravi" "Hi" "diya.png"
          (submit 1 1 10 ["diya.png"] headPick "t" "Asha" "Hello" "diya.png"
            []).2).1 = .errFull :=
  submit_capacity_exhausted 3 4 50 ["diya.png"] headPick "t" "Asha" "Hello"
    "diya.png" [] headPick_ok (by decide) (by decide) (by decide) (by decide)
    (by decide) (by decide)

/-- C6: with otherwise valid fields and a free grid position, `submit`
accepts a trimmed name of exactly 50 characters and rejects 51 with the
name-length validation error; accepts a trimmed message of exactly 200
characters and rejects 201 with the message-length validation error; and
always rejects an empty (after trimming) name, message or symbol — every
rejection leaving the ledger unchanged. -/
theorem submit_validation_boundaries (rows cols maxEntries : Nat)
    (cat : List String) (pick : List Nat → Nat) (now : String)
    (data : List Entry)
    (hav : get_available_positions rows cols data ≠ []) :
    (∀ name message symbol, (pyStrip name).length = 50 →
      pyStrip message ≠ "" → (pyStrip message).length ≤ 200 →
      pyStrip symbol ≠ "" → pyStrip symbol ∈ cat →
      (submit rows cols maxEntries cat pick now name message symbol
        data).1.isOk = true) ∧
    (∀ name message symbol, pyStrip message ≠ "" → pyStrip symbol ≠ "" →
      (pyStrip name).length = 51 →
      (submit rows cols maxEntries cat pick now name message symbol data).1 =
          .errNameLong ∧
        (submit rows cols maxEntries cat pick now name message symbol data).2 =
          data) ∧
    (∀ name message symbol, pyStrip name ≠ "" →
      (pyStrip name).length ≤ 50 → (pyStrip message).length = 200 →
      pyStrip symbol ≠ "" → pyStrip symbol ∈ cat →
      (submit rows cols maxEntries cat pick now name message symbol
        data).1.isOk = true) ∧
    (∀ name message symbol, pyStrip name ≠ "" →
      (pyStrip name).length ≤ 50 → pyStrip symbol ≠ "" →
      (pyStrip message).length = 201 →
      (submit rows cols maxEntries cat pick now name message symbol data).1 =
          .errMsgLong ∧
        (submit rows cols maxEntries cat pick now name message symbol data).2 =
          data) ∧
    (∀ name message symbol,
      pyStrip name = "" ∨ pyStrip message = "" ∨ pyStrip symbol = "" →
      (submit rows cols maxEntries cat pick now name message symbol data).1 =
          .errRequired ∧
        (submit rows cols maxEntries cat pick now name message symbol data).2 =
          data) := by
  refine ⟨?_, ?_, ?_, ?_, ?_⟩
  · intro name message symbol h50 hm hml hs hcat
    have hn : pyStrip name ≠ "" := by
      intro h0
      rw [h0] at h50
      simp at h50
    rw [submit_eq_ok rows cols maxEntries cat pick now name message symbol
      data hn hm hs (by omega) hml hcat hav]
    rfl
  · intro name message symbol hm hs h51
    have hn : pyStrip name ≠ "" := by
      intro h0
      rw [h0] at h51
      simp at h51
    rw [submit_eq_errNameLong rows cols maxEntries cat pick now name message
      symbol data hn hm hs (by omega)]
    exact ⟨rfl, rfl⟩
  · intro name message symbol hn hnl h200 hs hcat
    have hm : pyStrip message ≠ "" := by
      intro h0
      rw [h0] at h200
      simp at h200
    rw [submit_eq_ok rows cols maxEntries cat pick now name message symbol
      data hn hm hs hnl (by omega) hcat hav]
    rfl
  · intro name message symbol hn hnl hs h201
    have hm : pyStrip message ≠ "" := by
      intro h0
      rw [h0] at h201
      simp at h201
    rw [submit_eq_errMsgLong rows cols maxEntries cat pick now name message
      symbol data hn hm hs hnl (by omega)]
    exact ⟨rfl, rfl⟩
  · intro name message symbol h
    rw [submit_eq_errRequired rows cols maxEntries cat pick now name message
      symbol data h]
    exact ⟨rfl, rfl⟩

set_option maxRecDepth 20000 in
/-- Witness for C6 on a 1×1 grid with an empty ledger: a 50-character
name accepted, 51 rejected; a 200-character message accepted, 201
rejected; an empty name rejected. -/
theorem submit_validation_boundaries_witness :
    (submit 1 1 10 ["diya.png"] headPick "t" ⟨List.replicate 50 'a'⟩
        "Hello" "diya.png" []).1.isOk = true ∧
      ((submit 1 1 10 ["diya.png"] headPick "t" ⟨List.replicate 51 'a'⟩
          "Hello" "diya.png" []).1 = .errNameLong ∧
        (submit 1 1 10 ["diya.png"] headPick "t" ⟨List.replicate 51 'a'⟩
          "Hello" "diya.png" []).2 = []) ∧
      (submit 1 1 10 ["diya.png"] headPick "t" "Asha"
        ⟨List.replicate 200 'b'⟩ "diya.png" []).1.isOk = true ∧
      ((submit 1 1 10 ["diya.png"] headPick "t" "Asha"
          ⟨List.replicate 201 'b'⟩ "diya.png" []).1 = .errMsgLong ∧
        (submit 1 1 10 ["diya.png"] headPick "t" "Asha"
          ⟨List.replicate 201 'b'⟩ "diya.png" []).2 = []) ∧
      ((submit 1 1 10 ["diya.png"] headPick "t" "" "Hello" "diya.png"
          []).1 = .errRequired ∧
        (submit 1 1 10 ["diya.png"] headPick "t" "" "Hello" "diya.png"
          []).2 = []) :=
  have h := submit_validation_boundaries 1 1 10 ["diya.png"] headPick "t" []
    (by decide)
  ⟨h.1 _ _ _ (by decide) (by decide) (by decide) (by decide) (by decide),
   h.2.1 _ _ _ (by decide) (by decide) (by decide),
   h.2.2.1 _ _ _ (by decide) (by decide) (by decide) (by decide) (by decide),
   h.2.2.2.1 _ _ _ (by decide) (by decide) (by decide) (by decide),
   h.2.2.2.2 _ _ _ (Or.inl (by decide))⟩

theorem find?_append_none {α : Type} (p : α → Bool) (l₁ l₂ : List α)
    (h : l₁.find? p = none) : (l₁ ++ l₂).find? p = l₂.find? p := by
  induction l₁ with
  | nil => rfl
  | cons a l ih =>
    cases hp : p a with
    | true =>
      rw [List.find?_cons_of_pos _ hp] at h
      exact absurd h (by simp)
    | false =>
      rw [List.find?_cons_of_neg _ (by simp [hp])] at h
      rw [List.cons_append, List.find?_cons_of_neg _ (by simp [hp])]
      exact ih h

theorem find?_append_some {α : Type} (p : α → Bool) (l₁ l₂ : List α)
    (x : α) (h : l₁.find? p = some x) : (l₁ ++ l₂).find? p = some x := by
  induction l₁ with
  | nil => simp at h
  | cons a l ih =>
    cases hp : p a with
    | true =>
      rw [List.find?_cons_of_pos _ hp] at h
      rw [List.cons_append, List.find?_cons_of_pos _ hp]
      exact h
    | false =>
      rw [List.find?_cons_of_neg _ (by simp [hp])] at h
      rw [List.cons_append, List.find?_cons_of_neg _ (by simp [hp])]
      exact ih h

theorem dictContains_eq_isSome (d : Doc) (k : String) :
    dictContains d k = (dictLookup d k).isSome := by
  induction d with
  | nil => rfl
  | cons kv d ih =>
    simp only [dictContains, List.any_cons, dictLookup] at ih ⊢
    by_cases h : kv.1 = k
    · rw [List.find?_cons_of_pos _ (by simpa using h)]
      simp [h]
    · rw [List.find?_cons_of_neg _ (by simpa using h)]
      simpa [h] using ih

theorem lookup_map_replace_ne (d : Doc) (k : String) (v : Value) (q : String)
    (h : k ≠ q) :
    dictLookup (d.map (fun kv => if kv.1 = k then (k, v) else kv)) q =
      dictLookup d q := by
  induction d with
  | nil => rfl
  | cons kv d ih =>
    by_cases hkv : kv.1 = k
    · simp only [List.map_cons, if_pos hkv, dictLookup]
      rw [List.find?_cons_of_neg _ (by simpa using h),
        List.find?_cons_of_neg _ (by rw [hkv]; simpa using h)]
      exact ih
    · simp only [List.map_cons, if_neg hkv, dictLookup]
      by_cases hq : kv.1 = q
      · rw [List.find?_cons_of_pos _ (by simpa using hq),
          List.find?_cons_of_pos _ (by simpa using hq)]
      · rw [List.find?_cons_of_neg _ (by simpa using hq),
          List.find?_cons_of_neg _ (by simpa using hq)]
        exact ih

theorem lookup_map_replace_self (d : Doc) (k : String) (v : Value)
    (hc : dictContains d k = true) :
    dictLookup (d.map (fun kv => if kv.1 = k then (k, v) else kv)) k =
      some v := by
  induction d with
  | nil => simp [dictContains] at hc
  | cons kv d ih =>
    by_cases h : kv.1 = k
    · simp only [List.map_cons, if_pos h, dictLookup]
      rw [List.find?_cons_of_pos _ (by simp)]
      rfl
    · simp only [List.map_cons, if_neg h, dictLookup]
      rw [List.find?_cons_of_neg _ (by simpa using h)]
      simp only [dictContains, List.any_cons, Bool.or_eq_true] at hc
      rcases hc with h1 | h1
      · exact absurd (by simpa using h1) h
      · exact ih h1

theorem dictLookup_dictSet_self (d : Doc) (k : String) (v : Value) :
    dictLookup (dictSet d k v) k = some v := by
  unfold dictSet
  split
  next hc => exact lookup_map_replace_self d k v hc
  next hc =>
    have hnone : List.find? (fun kv => kv.1 = k) d = none := by
      cases hf : List.find? (fun kv => kv.1 = k) d with
      | none => rfl
      | some x =>
        exfalso
        apply hc
        rw [dictContains_eq_isSome]
        simp [dictLookup, hf]
    simp only [dictLookup]
    rw [find?_append_none _ _ _ hnone, List.find?_cons_of_pos _ (by simp)]
    rfl

theorem dictLookup_dictSet_ne (d : Doc) (k : String) (v : Value) (q : String)
    (h : k ≠ q) : dictLookup (dictSet d k v) q = dictLookup d q := by
  unfold dictSet
  split
  · exact lookup_map_replace_ne d k v q h
  · simp only [dictLookup]
    cases hf : List.find? (fun kv => decide (kv.1 = q)) d with
    | some x => rw [find?_append_some _ _ _ _ hf]
    | none =>
      rw [find?_append_none _ _ _ hf,
        List.find?_cons_of_neg _ (by simpa using h)]
      rfl

theorem dictContains_dictSet (d : Doc) (k : String) (v : Value) (q : String) :
    dictContains d q = true → dictContains (dictSet d k v) q = true := by
  intro hq
  by_cases h : k = q
  · rw [dictContains_eq_isSome, ← h, dictLookup_dictSet_self]
    rfl
  · rw [dictContains_eq_isSome, dictLookup_dictSet_ne d k v q h,
      ← dictContains_eq_isSome]
    exact hq

theorem dictContains_dictSet_self (d : Doc) (k : String) (v : Value) :
    dictContains (dictSet d k v) k = true := by
  rw [dictContains_eq_isSome, dictLookup_dictSet_self]
  rfl

theorem default_settings_split :
    default_settings =
      defaultsPre ++ ("celebration_animations", celAnimsDefault) ::
        defaultsPost := rfl

theorem mergeStep_contains_self (acc : Doc) (kv : String × Value) :
    dictContains (mergeStep acc kv) kv.1 = true := by
  unfold mergeStep
  split
  next hc =>
    split
    · exact dictContains_dictSet_self _ _ _
    · exact hc
  next hc => exact dictContains_dictSet_self _ _ _

theorem mergeStep_contains_mono (acc : Doc) (kv : String × Value)
    (q : String) (hq : dictContains acc q = true) :
    dictContains (mergeStep acc kv) q = true := by
  unfold mergeStep
  split
  · split
    · exact dictContains_dictSet _ _ _ _ hq
    · exact hq
  · exact dictContains_dictSet _ _ _ _ hq

theorem foldl_mergeStep_contains_mono (l : Doc) (acc : Doc) (q : String)
    (hq : dictContains acc q = true) :
    dictContains (l.foldl mergeStep acc) q = true := by
  induction l generalizing acc with
  | nil => exact hq
  | cons kv l ih =>
    rw [List.foldl_cons]
    exact ih _ (mergeStep_contains_mono acc kv q hq)

theorem foldl_mergeStep_contains_mem (l : Doc) (acc : Doc)
    (kv : String × Value) (h : kv ∈ l) :
    dictContains (l.foldl mergeStep acc) kv.1 = true := by
  induction l generalizing acc with
  | nil => simp at h
  | cons x l ih =>
    rw [List.foldl_cons]
    rcases List.mem_cons.mp h with h | h
    · subst h
      exact foldl_mergeStep_contains_mono l _ _ (mergeStep_contains_self acc kv)
    · exact ih _ h

theorem mergeStep_lookup_ne (acc : Doc) (kv : String × Value) (q : String)
    (h : kv.1 ≠ q) : dictLookup (mergeStep acc kv) q = dictLookup acc q := by
  unfold mergeStep
  split
  · split
    · exact dictLookup_dictSet_ne _ _ _ _ h
    · rfl
  · exact dictLookup_dictSet_ne _ _ _ _ h

theorem celGood_mergeStep_cel (acc : Doc) (v : Value)
    (hv : valueFalsy v = false) :
    CelGood (mergeStep acc ("celebration_animations", v)) := by
  unfold CelGood mergeStep
  split
  next hc =>
    split
    next hg =>
      rw [dictLookup_dictSet_self]
      simpa using hv
    next hg =>
      rcases Decidable.em
          ((dictLookup acc "celebration_animations").all valueFalsy = true) with
        hall | hall
      · exact absurd ⟨rfl, hall⟩ hg
      · simpa using hall
  next hc =>
    rw [dictLookup_dictSet_self]
    simpa using hv

theorem celGood_mergeStep_ne (acc : Doc) (kv : String × Value)
    (h : kv.1 ≠ "celebration_animations") (hg : CelGood acc) :
    CelGood (mergeStep acc kv) := by
  unfold CelGood
  rw [mergeStep_lookup_ne acc kv _ h]
  exact hg

theorem celGood_foldl (l : Doc) (acc : Doc)
    (h : ∀ kv ∈ l, kv.1 ≠ "celebration_animations") (hg : CelGood acc) :
    CelGood (l.foldl mergeStep acc) := by
  induction l generalizing acc with
  | nil => exact hg
  | cons kv l ih =>
    rw [List.foldl_cons]
    exact ih _ (fun x hx => h x (List.mem_cons_of_mem _ hx))
      (celGood_mergeStep_ne acc kv (h kv (List.mem_cons_self _ _)) hg)

theorem mergeDefaults_celGood (d : Doc) : CelGood (mergeDefaults d) := by
  rw [mergeDefaults, default_settings_split, List.foldl_append,
    List.foldl_cons]
  exact celGood_foldl _ _ (by decide)
    (celGood_mergeStep_cel _ _ (by decide))

theorem mergeStep_id (acc : Doc) (kv : String × Value)
    (hc : dictContains acc kv.1 = true)
    (hng : kv.1 = "celebration_animations" →
      (dictLookup acc kv.1).all valueFalsy = false) :
    mergeStep acc kv = acc := by
  unfold mergeStep
  rw [if_pos hc, if_neg ?h]
  case h =>
    rintro ⟨h1, h2⟩
    rw [hng h1] at h2
    exact Bool.false_ne_true h2

theorem foldl_fixed {α β : Type} (f : α → β → α) (l : List β) (a : α)
    (h : ∀ x ∈ l, f a x = a) : l.foldl f a = a := by
  induction l with
  | nil => rfl
  | cons x l ih =>
    rw [List.foldl_cons, h x (List.mem_cons_self _ _)]
    exact ih (fun y hy => h y (List.mem_cons_of_mem _ hy))

theorem foldl_lookup_ne (l : Doc) (acc : Doc) (q : String)
    (h : ∀ kv ∈ l, kv.1 ≠ q) :
    dictLookup (l.foldl mergeStep acc) q = dictLookup acc q := by
  induction l generalizing acc with
  | nil => rfl
  | cons kv l ih =>
    rw [List.foldl_cons, ih _ (fun x hx => h x (List.mem_cons_of_mem _ hx)),
      mergeStep_lookup_ne acc kv q (h kv (List.mem_cons_self _ _))]

theorem foldl_keeps_lookup (l : Doc) (acc : Doc) (q : String) (v : Value)
    (hv : dictLookup acc q = some v)
    (hcel : q = "celebration_animations" → valueFalsy v = false) :
    dictLookup (l.foldl mergeStep acc) q = some v := by
  induction l generalizing acc with
  | nil => exact hv
  | cons kv l ih =>
    rw [List.foldl_cons]
    refine ih _ ?_
    by_cases hk : kv.1 = q
    · have hc : dictContains acc kv.1 = true := by
        rw [dictContains_eq_isSome, hk, hv]
        rfl
      rw [mergeStep_id acc kv hc ?_]
      · exact hv
      · intro hcelkey
        rw [hk, hv]
        simpa using hcel (hk ▸ hcelkey)
    · rw [mergeStep_lookup_ne acc kv q hk]
      exact hv

theorem mergeStep_set (acc : Doc) (k : String) (v : Value)
    (hc : dictContains acc k = true) (hcel : k = "celebration_animations")
    (hfalsy : (dictLookup acc k).all valueFalsy = true) :
    mergeStep acc (k, v) = dictSet acc k v := by
  unfold mergeStep
  dsimp only
  rw [if_pos hc, if_pos ⟨hcel, hfalsy⟩]

theorem mergeDefaults_cel_falsy (d : Doc) (v : Value)
    (hv : dictLookup d "celebration_animations" = some v)
    (hf : valueFalsy v = true) :
    dictLookup (mergeDefaults d) "celebration_animations" =
      some celAnimsDefault := by
  rw [mergeDefaults, default_settings_split, List.foldl_append,
    List.foldl_cons]
  have hpre : dictLookup (defaultsPre.foldl mergeStep d)
      "celebration_animations" = some v := by
    rw [foldl_lookup_ne defaultsPre d _ (by decide)]
    exact hv
  have hc : dictContains (defaultsPre.foldl mergeStep d)
      "celebration_animations" = true := by
    rw [dictContains_eq_isSome, hpre]
    rfl
  rw [mergeStep_set _ _ _ hc rfl (by rw [hpre]; simpa using hf),
    foldl_lookup_ne defaultsPost _ _ (by decide), dictLookup_dictSet_self]

/-- C8: the default-merge performed by `load_admin_settings` is
idempotent — merging the default schema into any settings document and
then merging again yields the same document as merging once. -/
theorem mergeDefaults_idempotent (d : Doc) :
    mergeDefaults (mergeDefaults d) = mergeDefaults d := by
  have hcel := mergeDefaults_celGood d
  unfold CelGood at hcel
  unfold mergeDefaults at hcel ⊢
  apply foldl_fixed
  intro kv hkv
  apply mergeStep_id
  · exact foldl_mergeStep_contains_mem default_settings d kv hkv
  · intro h1
    rw [h1]
    exact hcel

theorem map_discr_emptyList (o : Option Value)
    (h : Option.map valueIsEmptyList o = some true) :
    o = some (Value.list []) := by
  cases o with
  | none => simp at h
  | some v =>
    cases v with
    | list l =>
      cases l with
      | nil => rfl
      | cons a t => simp [valueIsEmptyList] at h
    | null => simp [valueIsEmptyList] at h
    | bool b => simp [valueIsEmptyList] at h
    | int n => simp [valueIsEmptyList] at h
    | str s => simp [valueIsEmptyList] at h
    | obj d => simp [valueIsEmptyList] at h

theorem load_some (d : Doc) :
    load_admin_settings (some d) = (mergeDefaults d, some d) := by
  simp only [load_admin_settings]

theorem load_none :
    load_admin_settings none = (default_settings, some default_settings) := by
  simp only [load_admin_settings]

/-- C7 as stated is too strong: `celebration_animations`, although
present in the loaded document (with value the empty list), does not keep
its loaded value — the loader overwrites it with the default. -/
theorem load_admin_settings_overwrites_present_key :
    dictLookup [("celebration_animations", Value.list [])]
        "celebration_animations" = some (Value.list []) ∧
      dictLookup
          (load_admin_settings
            (some [("celebration_animations", Value.list [])])).1
          "celebration_animations" ≠ some (Value.list []) := by
  rw [load_some]
  dsimp only
  refine ⟨rfl, ?_⟩
  intro h
  have h2 : Option.map valueIsEmptyList
      (dictLookup (mergeDefaults [("celebration_animations", Value.list [])])
        "celebration_animations") = some false := by decide
  rw [h] at h2
  simp [valueIsEmptyList] at h2

theorem mergeStep_contains_ne (acc : Doc) (kv : String × Value)
    (q : String) (h : kv.1 ≠ q) :
    dictContains (mergeStep acc kv) q = dictContains acc q := by
  rw [dictContains_eq_isSome, dictContains_eq_isSome,
    mergeStep_lookup_ne acc kv q h]

theorem mergeStep_not_contains (acc : Doc) (kv : String × Value)
    (h : dictContains acc kv.1 = false) :
    mergeStep acc kv = dictSet acc kv.1 kv.2 := by
  unfold mergeStep
  rw [if_neg (by simp [h])]

theorem dictLookup_eq_none_of_not_contains (l : Doc) (k : String)
    (h : dictContains l k = false) : dictLookup l k = none := by
  rw [dictContains_eq_isSome] at h
  cases hf : dictLookup l k with
  | none => rfl
  | some v =>
    rw [hf] at h
    simp at h

theorem dictLookup_of_mem_nodup :
    ∀ (l : Doc) (kv : String × Value), kv ∈ l →
      (l.map (fun p => p.1)).Nodup → dictLookup l kv.1 = some kv.2 := by
  intro l
  induction l with
  | nil =>
    intro kv hmem _
    simp at hmem
  | cons x rest ih =>
    intro kv hmem hnd
    simp only [List.map_cons, List.nodup_cons] at hnd
    rcases List.mem_cons.mp hmem with heq | hmemr
    · subst heq
      unfold dictLookup
      rw [List.find?_cons_of_pos _ (by simp)]
      rfl
    · have hxne : x.1 ≠ kv.1 := by
        intro hx
        exact hnd.1 (hx ▸ List.mem_map_of_mem _ hmemr)
      unfold dictLookup
      rw [List.find?_cons_of_neg _ (by simp [hxne])]
      exact ih kv hmemr hnd.2

theorem foldl_missing_backfills (kv : String × Value) :
    ∀ (l : Doc) (acc : Doc), kv ∈ l →
      (l.map (fun p => p.1)).Nodup → dictContains acc kv.1 = false →
      dictLookup (l.foldl mergeStep acc) kv.1 = some kv.2 := by
  intro l
  induction l with
  | nil =>
    intro acc hmem _ _
    simp at hmem
  | cons x rest ih =>
    intro acc hmem hnd hacc
    simp only [List.map_cons, List.nodup_cons] at hnd
    rw [List.foldl_cons]
    rcases List.mem_cons.mp hmem with heq | hmemr
    · subst heq
      rw [mergeStep_not_contains acc kv hacc]
      have hrest : ∀ p ∈ rest, p.1 ≠ kv.1 := by
        intro p hp hpk
        exact hnd.1 (hpk ▸ List.mem_map_of_mem _ hp)
      rw [foldl_lookup_ne rest _ _ hrest, dictLookup_dictSet_self]
    · have hxne : x.1 ≠ kv.1 := by
        intro hx
        exact hnd.1 (hx ▸ List.mem_map_of_mem _ hmemr)
      have hacc2 : dictContains (mergeStep acc x) kv.1 = false := by
        rw [mergeStep_contains_ne acc x kv.1 hxne]
        exact hacc
      exact ih _ hmemr hnd.2 hacc2

theorem mergeDefaults_missing_key (d : Doc) (k : String)
    (hmiss : dictContains d k = false) :
    dictLookup (mergeDefaults d) k = dictLookup default_settings k := by
  cases hdef : dictContains default_settings k with
  | true =>
    simp only [dictContains, List.any_eq_true] at hdef
    obtain ⟨kv, hmem, hkv⟩ := hdef
    have keq : kv.1 = k := of_decide_eq_true hkv
    have hnd : (default_settings.map (fun p => p.1)).Nodup := by decide
    have hval : dictLookup default_settings k = some kv.2 := by
      rw [← keq]
      exact dictLookup_of_mem_nodup default_settings kv hmem hnd
    have hmiss2 : dictContains d kv.1 = false := by
      rw [keq]
      exact hmiss
    have hbf := foldl_missing_backfills kv default_settings d hmem hnd hmiss2
    rw [keq] at hbf
    unfold mergeDefaults
    rw [hbf, hval]
  | false =>
    have hne : ∀ kv ∈ default_settings, kv.1 ≠ k := by
      intro kv hm hk
      have hc : dictContains default_settings k = true := by
        rw [dictContains]
        exact List.any_eq_true.mpr ⟨kv, hm, by simp [hk]⟩
      rw [hdef] at hc
      exact Bool.noConfusion hc
    unfold mergeDefaults
    rw [foldl_lookup_ne default_settings d k hne,
      dictLookup_eq_none_of_not_contains d k hmiss,
      dictLookup_eq_none_of_not_contains default_settings k hdef]

/-- C7 (amended): `load_admin_settings` backfills every key missing from
the loaded document with its default value, self-heals an absent or
unparsable file by persisting and returning the full default schema, and
keeps the loaded value of every present key — except
`celebration_animations`, which is replaced by its default when its
loaded value is falsy (e.g. the empty list). -/
theorem load_admin_settings_backfills (file : Option Doc) :
    (∀ k, dictContains default_settings k = true →
      dictContains (load_admin_settings file).1 k = true) ∧
      (file = none →
        load_admin_settings file = (default_settings, some default_settings)) ∧
      ∀ d, file = some d →
        (load_admin_settings file).2 = some d ∧
        (∀ k, dictContains d k = false →
          dictLookup (load_admin_settings file).1 k =
            dictLookup default_settings k) ∧
        ∀ k v, dictLookup d k = some v →
          (k = "celebration_animations" → valueFalsy v = true →
            dictLookup (load_admin_settings file).1 k =
              dictLookup default_settings k) ∧
          ((k = "celebration_animations" → valueFalsy v = false) →
            dictLookup (load_admin_settings file).1 k = some v) := by
  refine ⟨?_, ?_, ?_⟩
  · intro k hk
    cases file with
    | none =>
      rw [load_none]
      exact hk
    | some d =>
      rw [load_some]
      dsimp only
      unfold mergeDefaults
      simp only [dictContains, List.any_eq_true] at hk
      obtain ⟨kv, hmem, hkv⟩ := hk
      have hres := foldl_mergeStep_contains_mem default_settings d kv hmem
      rw [of_decide_eq_true hkv] at hres
      exact hres
  · intro h
    subst h
    rw [load_none]
  · intro d hfile
    subst hfile
    rw [load_some]
    dsimp only
    refine ⟨rfl, ?_, ?_⟩
    · intro k hmiss
      exact mergeDefaults_missing_key d k hmiss
    · intro k v hv
      constructor
      · intro hcel hfalsy
        subst hcel
        rw [mergeDefaults_cel_falsy d v hv hfalsy]
        rfl
      · intro hnf
        show dictLookup (mergeDefaults d) k = some v
        unfold mergeDefaults
        exact foldl_keeps_lookup default_settings d k v hv hnf

/-- Witness for C7 (amended): loading a document holding only
`grid_rows = 3` backfills the missing `max_entries` with its default
value `50`, leaves the file untouched, and keeps the loaded
`grid_rows`. -/
theorem load_admin_settings_backfills_witness :
    dictContains (load_admin_settings (some [("grid_rows", Value.int 3)])).1
        "max_entries" = true ∧
      dictLookup (load_admin_settings (some [("grid_rows", Value.int 3)])).1
        "max_entries" = dictLookup default_settings "max_entries" ∧
      dictLookup default_settings "max_entries" = some (Value.int 50) ∧
      (load_admin_settings (some [("grid_rows", Value.int 3)])).2 =
        some [("grid_rows", Value.int 3)] ∧
      dictLookup (load_admin_settings (some [("grid_rows", Value.int 3)])).1
        "grid_rows" = some (Value.int 3) :=
  have h := load_admin_settings_backfills (some [("grid_rows", Value.int 3)])
  ⟨h.1 "max_entries" (by decide),
   (h.2.2 _ rfl).2.1 "max_entries" (by decide),
   rfl,
   (h.2.2 _ rfl).1,
   ((h.2.2 _ rfl).2.2 "grid_rows" (Value.int 3) rfl).2
     (fun hc => absurd hc (by decide))⟩

/-- C1 fails on the code: a persisted document whose symbol catalog
(`symbols`) is present and empty is returned with the catalog still
empty, not the default catalog — the empty-list special case applies to
`celebration_animations` only. -/
theorem load_empty_symbol_catalog_kept :
    dictLookup (load_admin_settings (some [("symbols", Value.list [])])).1
        "symbols" = some (Value.list []) ∧
      dictLookup default_settings "symbols" ≠ some (Value.list []) := by
  rw [load_some]
  dsimp only
  constructor
  · exact map_discr_emptyList _ (by decide)
  · intro h
    have h2 : Option.map valueIsEmptyList
        (dictLookup default_settings "symbols") = some false := by decide
    rw [h] at h2
    simp [valueIsEmptyList] at h2

/-- C1 (amended): the empty-equals-absent defaulting applies to the
animation list, not to the symbol catalog: loading a document whose
`celebration_animations` is the empty list yields the non-empty default
animation list, while a present-but-empty `symbols` list is kept
empty. -/
theorem empty_animations_defaulted (d : Doc)
    (h : dictLookup d "celebration_animations" = some (Value.list [])) :
    dictLookup (load_admin_settings (some d)).1 "celebration_animations" =
        some celAnimsDefault ∧
      celAnimsDefault =
        Value.list [Value.str "confetti", Value.str "fireworks",
          Value.str "diwali", Value.str "sparkle-rain",
          Value.str "flower-burst", Value.str "rangoli"] ∧
      dictLookup (load_admin_settings (some [("symbols", Value.list [])])).1
        "symbols" = some (Value.list []) := by
  rw [load_some, load_some]
  dsimp only
  exact ⟨mergeDefaults_cel_falsy d _ h rfl, rfl,
    map_discr_emptyList _ (by decide)⟩

/-- Witness for C1 (amended) on the document
`{"celebration_animations": []}`. -/
theorem empty_animations_defaulted_witness :
    dictLookup (load_admin_settings
          (some [("celebration_animations", Value.list [])])).1
        "celebration_animations" = some celAnimsDefault ∧
      celAnimsDefault =
        Value.list [Value.str "confetti", Value.str "fireworks",
          Value.str "diwali", Value.str "sparkle-rain",
          Value.str "flower-burst", Value.str "rangoli"] ∧
      dictLookup (load_admin_settings (some [("symbols", Value.list [])])).1
        "symbols" = some (Value.list []) :=
  empty_animations_defaulted [("celebration_animations", Value.list [])] rfl

theorem dictSet_lookup (d : Doc) (k : String) (v : Value) (q : String) :
    dictLookup (dictSet d k v) q =
      if k = q then some v else dictLookup d q := by
  by_cases h : k = q
  · subst h
    rw [if_pos rfl, dictLookup_dictSet_self]
  · rw [if_neg h, dictLookup_dictSet_ne _ _ _ _ h]

theorem upd_header_lookup_ne (ht : String) (s : Doc) (q : String)
    (h : q ≠ "header_text") :
    dictLookup (upd_header ht s) q = dictLookup s q := by
  unfold upd_header
  split
  · exact dictLookup_dictSet_ne _ _ _ _ (Ne.symm h)
  · rfl

theorem upd_max_lookup_ne (me : Option Int) (s : Doc) (q : String)
    (h : q ≠ "max_entries") :
    dictLookup (upd_max me s) q = dictLookup s q := by
  unfold upd_max
  cases me with
  | none => rfl
  | some m =>
    dsimp only
    split
    · exact dictLookup_dictSet_ne _ _ _ _ (Ne.symm h)
    · rfl

theorem upd_max_lookup_self (me : Option Int) (s : Doc) :
    dictLookup (upd_max me s) "max_entries" =
      match me with
      | some m => if m ≠ 0 ∧ m > 0 then some (Value.int m)
          else dictLookup s "max_entries"
      | none => dictLookup s "max_entries" := by
  unfold upd_max
  cases me with
  | none => rfl
  | some m =>
    dsimp only
    split
    next hm => rw [dictLookup_dictSet_self]
    next hm => rfl

theorem upd_mode_lookup_ne (gm : String) (s : Doc) (q : String)
    (h : q ≠ "grid_mode") :
    dictLookup (upd_mode gm s) q = dictLookup s q :=
  dictLookup_dictSet_ne _ _ _ _ (Ne.symm h)

theorem upd_rows_lookup_ne (gr : Option Int) (s : Doc) (q : String)
    (h : q ≠ "grid_rows") :
    dictLookup (upd_rows gr s) q = dictLookup s q := by
  unfold upd_rows
  cases gr with
  | none => rfl
  | some r =>
    dsimp only
    split
    · exact dictLookup_dictSet_ne _ _ _ _ (Ne.symm h)
    · rfl

theorem upd_rows_lookup_self (gr : Option Int) (s : Doc) :
    dictLookup (upd_rows gr s) "grid_rows" =
      match gr with
      | some r => if r ≠ 0 ∧ r > 0 ∧ r ≤ 50 then some (Value.int r)
          else dictLookup s "grid_rows"
      | none => dictLookup s "grid_rows" := by
  unfold upd_rows
  cases gr with
  | none => rfl
  | some r =>
    dsimp only
    split
    next hr => rw [dictLookup_dictSet_self]
    next hr => rfl

theorem upd_cols_lookup_ne (gc : Option Int) (s : Doc) (q : String)
    (h : q ≠ "grid_cols") :
    dictLookup (upd_cols gc s) q = dictLookup s q := by
  unfold upd_cols
  cases gc with
  | none => rfl
  | some c =>
    dsimp only
    split
    · exact dictLookup_dictSet_ne _ _ _ _ (Ne.symm h)
    · rfl

theorem upd_cols_lookup_self (gc : Option Int) (s : Doc) :
    dictLookup (upd_cols gc s) "grid_cols" =
      match gc with
      | some c => if c ≠ 0 ∧ c > 0 ∧ c ≤ 50 then some (Value.int c)
          else dictLookup s "grid_cols"
      | none => dictLookup s "grid_cols" := by
  unfold upd_cols
  cases gc with
  | none => rfl
  | some c =>
    dsimp only
    split
    next hc => rw [dictLookup_dictSet_self]
    next hc => rfl

theorem upd_grid_lookup_ne (gm : String) (gr gc : Option Int) (s : Doc)
    (q : String) (h1 : q ≠ "grid_rows") (h2 : q ≠ "grid_cols") :
    dictLookup (upd_grid gm gr gc s) q = dictLookup s q := by
  unfold upd_grid
  split
  · rw [upd_cols_lookup_ne _ _ _ h2, upd_rows_lookup_ne _ _ _ h1]
  · rfl

theorem upd_anims_lookup_ne (ca : List String) (s : Doc) (q : String)
    (h : q ≠ "celebration_animations") :
    dictLookup (upd_anims ca s) q = dictLookup s q := by
  unfold upd_anims
  exact dictLookup_dictSet_ne _ _ _ _ (Ne.symm h)

theorem update_settings_lookup_max (f : UpdateForm) (s : Doc) :
    dictLookup (update_settings f s) "max_entries" =
      match f.max_entries with
      | some m => if m ≠ 0 ∧ m > 0 then some (Value.int m)
          else dictLookup s "max_entries"
      | none => dictLookup s "max_entries" := by
  unfold update_settings
  rw [upd_anims_lookup_ne _ _ _ (by decide),
    upd_grid_lookup_ne _ _ _ _ _ (by decide) (by decide),
    upd_mode_lookup_ne _ _ _ (by decide), upd_max_lookup_self]
  cases f.max_entries with
  | none => exact upd_header_lookup_ne _ _ _ (by decide)
  | some m =>
    dsimp only
    rw [upd_header_lookup_ne _ _ _ (by decide)]

theorem update_settings_lookup_rows (f : UpdateForm) (s : Doc) :
    dictLookup (update_settings f s) "grid_rows" =
      if f.grid_mode = "manual" then
        match f.grid_rows with
        | some r => if r ≠ 0 ∧ r > 0 ∧ r ≤ 50 then some (Value.int r)
            else dictLookup s "grid_rows"
        | none => dictLookup s "grid_rows"
      else dictLookup s "grid_rows" := by
  unfold update_settings
  have hbase : dictLookup
      (upd_mode f.grid_mode (upd_max f.max_entries
        (upd_header f.header_text s))) "grid_rows" =
      dictLookup s "grid_rows" := by
    rw [upd_mode_lookup_ne _ _ _ (by decide),
      upd_max_lookup_ne _ _ _ (by decide),
      upd_header_lookup_ne _ _ _ (by decide)]
  rw [upd_anims_lookup_ne _ _ _ (by decide)]
  unfold upd_grid
  split
  · rw [upd_cols_lookup_ne _ _ _ (by decide), upd_rows_lookup_self]
    cases f.grid_rows with
    | none => exact hbase
    | some r =>
      dsimp only
      rw [hbase]
  · exact hbase

theorem update_settings_lookup_cols (f : UpdateForm) (s : Doc) :
    dictLookup (update_settings f s) "grid_cols" =
      if f.grid_mode = "manual" then
        match f.grid_cols with
        | some c => if c ≠ 0 ∧ c > 0 ∧ c ≤ 50 then some (Value.int c)
            else dictLookup s "grid_cols"
        | none => dictLookup s "grid_cols"
      else dictLookup s "grid_cols" := by
  unfold update_settings
  have hbase : dictLookup
      (upd_mode f.grid_mode (upd_max f.max_entries
        (upd_header f.header_text s))) "grid_cols" =
      dictLookup s "grid_cols" := by
    rw [upd_mode_lookup_ne _ _ _ (by decide),
      upd_max_lookup_ne _ _ _ (by decide),
      upd_header_lookup_ne _ _ _ (by decide)]
  rw [upd_anims_lookup_ne _ _ _ (by decide)]
  unfold upd_grid
  split
  · rw [upd_cols_lookup_self]
    cases f.grid_cols with
    | none =>
      rw [upd_rows_lookup_ne _ _ _ (by decide)]
      exact hbase
    | some c =>
      dsimp only
      rw [upd_rows_lookup_ne _ _ _ (by decide), hbase]
  · exact hbase

/-- C10: `update_settings` preserves the settings bounds invariant
(`max_entries > 0`, `1 ≤ grid_rows ≤ 50`, `1 ≤ grid_cols ≤ 50`): a
missing, non-positive (or, for the grid fields, over-50) submitted value
leaves the corresponding stored value unchanged, and the grid dimensions
are modified only when the submitted grid mode is `manual`. -/
theorem update_settings_preserves_bounds (f : UpdateForm) (s : Doc)
    (h : SettingsBounds s) :
    SettingsBounds (update_settings f s) ∧
      (f.grid_mode ≠ "manual" →
        dictLookup (update_settings f s) "grid_rows" =
            dictLookup s "grid_rows" ∧
          dictLookup (update_settings f s) "grid_cols" =
            dictLookup s "grid_cols") ∧
      ((f.max_entries = none ∨ ∃ m, f.max_entries = some m ∧ m ≤ 0) →
        dictLookup (update_settings f s) "max_entries" =
          dictLookup s "max_entries") ∧
      ((f.grid_rows = none ∨ ∃ r, f.grid_rows = some r ∧ (r ≤ 0 ∨ 50 < r)) →
        dictLookup (update_settings f s) "grid_rows" =
          dictLookup s "grid_rows") ∧
      ((f.grid_cols = none ∨ ∃ c, f.grid_cols = some c ∧ (c ≤ 0 ∨ 50 < c)) →
        dictLookup (update_settings f s) "grid_cols" =
          dictLookup s "grid_cols") := by
  obtain ⟨⟨m0, hm0, hm0p⟩, ⟨r0, hr0, hr0b⟩, ⟨c0, hc0, hc0b⟩⟩ := h
  refine ⟨⟨?_, ?_, ?_⟩, ?_, ?_, ?_, ?_⟩
  · rw [update_settings_lookup_max]
    cases f.max_entries with
    | none => exact ⟨m0, hm0, hm0p⟩
    | some m =>
      dsimp only
      split
      next hcond => exact ⟨m, rfl, by omega⟩
      next => exact ⟨m0, hm0, hm0p⟩
  · rw [update_settings_lookup_rows]
    split
    · cases f.grid_rows with
      | none => exact ⟨r0, hr0, hr0b⟩
      | some r =>
        dsimp only
        split
        next hcond => exact ⟨r, rfl, by omega⟩
        next => exact ⟨r0, hr0, hr0b⟩
    · exact ⟨r0, hr0, hr0b⟩
  · rw [update_settings_lookup_cols]
    split
    · cases f.grid_cols with
      | none => exact ⟨c0, hc0, hc0b⟩
      | some c =>
        dsimp only
        split
        next hcond => exact ⟨c, rfl, by omega⟩
        next => exact ⟨c0, hc0, hc0b⟩
    · exact ⟨c0, hc0, hc0b⟩
  · intro hmode
    constructor
    · rw [update_settings_lookup_rows, if_neg hmode]
    · rw [update_settings_lookup_cols, if_neg hmode]
  · intro hcase
    rw [update_settings_lookup_max]
    rcases hcase with hnone | ⟨m, hsome, hm⟩
    · rw [hnone]
    · rw [hsome]
      dsimp only
      rw [if_neg (by omega)]
  · intro hcase
    rw [update_settings_lookup_rows]
    split
    · rcases hcase with hnone | ⟨r, hsome, hr⟩
      · rw [hnone]
      · rw [hsome]
        dsimp only
        rw [if_neg (by omega)]
    · rfl
  · intro hcase
    rw [update_settings_lookup_cols]
    split
    · rcases hcase with hnone | ⟨c, hsome, hc⟩
      · rw [hnone]
      · rw [hsome]
        dsimp only
        rw [if_neg (by omega)]
    · rfl

/-- Witness for C10: a form submitting `max_entries = 0`,
`grid_rows = 99` in `auto` mode against the default settings leaves all
three numeric fields unchanged and keeps the invariant. -/
theorem update_settings_preserves_bounds_witness :
    SettingsBounds (update_settings
        ⟨" New ", some 0, "auto", some 99, none, []⟩ default_settings) ∧
      dictLookup (update_settings
          ⟨" New ", some 0, "auto", some 99, none, []⟩ default_settings)
        "grid_rows" = dictLookup default_settings "grid_rows" ∧
      dictLookup (update_settings
          ⟨" New ", some 0, "auto", some 99, none, []⟩ default_settings)
        "grid_cols" = dictLookup default_settings "grid_cols" ∧
      dictLookup (update_settings
          ⟨" New ", some 0, "auto", some 99, none, []⟩ default_settings)
        "max_entries" = dictLookup default_settings "max_entries" :=
  have h := update_settings_preserves_bounds
    ⟨" New ", some 0, "auto", some 99, none, []⟩ default_settings
    ⟨⟨50, rfl, by omega⟩, ⟨10, rfl, by omega⟩, ⟨12, rfl, by omega⟩⟩
  ⟨h.1, (h.2.1 (by decide)).1, (h.2.1 (by decide)).2,
    h.2.2.1 (Or.inr ⟨0, rfl, by omega⟩)⟩

/-- C4 fails on the code: a submission whose generated filename is
already in the catalog is not rejected — `add_symbol` appends it and the
catalog is no longer unique by filename. -/
theorem add_symbol_no_duplicate_check :
    add_symbol true "pic.png" "New" "symbol_20250101_000000.png"
        [("symbols", Value.list
          [Value.obj [("filename", Value.str "symbol_20250101_000000.png"),
            ("label", Value.str "Old")]])] =
      AddSymbolResult.ok
        [("symbols", Value.list
          [Value.obj [("filename", Value.str "symbol_20250101_000000.png"),
            ("label", Value.str "Old")],
           Value.obj [("filename", Value.str "symbol_20250101_000000.png"),
            ("label", Value.str "New")]])] ∧
      ¬ (symbolFilenames
          [("symbols", Value.list
            [Value.obj [("filename",
                Value.str "symbol_20250101_000000.png"),
              ("label", Value.str "Old")],
             Value.obj [("filename",
                Value.str "symbol_20250101_000000.png"),
              ("label", Value.str "New")]])]).Nodup := by
  constructor
  · rfl
  · decide

/-- C4 (amended): `add_symbol` performs no duplicate check; with a valid
file part, label and PNG filename it unconditionally appends an entry
carrying the server-generated timestamped filename, and the catalog
stays unique by filename only when that generated filename differs from
every filename already present. -/
theorem add_symbol_appends_generated (origFilename label genFilename : String)
    (settings : Doc) (l : List Value)
    (hfile : strEndsWith (pyLower origFilename) ".png" = true)
    (horig : origFilename ≠ "") (hlabel : pyStrip label ≠ "")
    (hsym : dictLookup settings "symbols" = some (.list l)) :
    add_symbol true origFilename label genFilename settings =
      .ok (dictSet settings "symbols" (.list (l ++
        [.obj [("filename", .str genFilename),
          ("label", .str (pyStrip label))]]))) ∧
      (genFilename ∉ symbolFilenames settings →
        (symbolFilenames settings).Nodup →
        (symbolFilenames (dictSet settings "symbols" (.list (l ++
          [.obj [("filename", .str genFilename),
            ("label", .str (pyStrip label))]])))).Nodup) := by
  have hmain : add_symbol true origFilename label genFilename settings =
      .ok (dictSet settings "symbols" (.list (l ++
        [.obj [("filename", .str genFilename),
          ("label", .str (pyStrip label))]]))) := by
    unfold add_symbol
    rw [if_neg (by simp), if_neg (by simp [horig, hlabel]),
      if_neg (by simp [hfile]), hsym]
  refine ⟨hmain, ?_⟩
  intro hnm hnd
  have hnew : symbolFilenames (dictSet settings "symbols" (.list (l ++
      [.obj [("filename", .str genFilename),
        ("label", .str (pyStrip label))]]))) =
      symbolFilenames settings ++ [genFilename] := by
    unfold symbolFilenames
    rw [dictLookup_dictSet_self, hsym]
    dsimp only
    rw [List.filterMap_append]
    rfl
  rw [hnew]
  simp [List.nodup_append, hnd, hnm]

/-- Witness for C4 (amended): adding a generated symbol to an empty
catalog. -/
theorem add_symbol_appends_generated_witness :
    add_symbol true "pic.png" "New" "symbol_x.png"
        [("symbols", Value.list [])] =
      .ok (dictSet [("symbols", Value.list [])] "symbols"
        (Value.list (([] : List Value) ++
          [Value.obj [("filename", Value.str "symbol_x.png"),
            ("label", Value.str (pyStrip "New"))]]))) ∧
      (symbolFilenames (dictSet [("symbols", Value.list [])] "symbols"
        (Value.list (([] : List Value) ++
          [Value.obj [("filename", Value.str "symbol_x.png"),
            ("label", Value.str (pyStrip "New"))]])))).Nodup :=
  have h := add_symbol_appends_generated "pic.png" "New" "symbol_x.png"
    [("symbols", Value.list [])] [] (by decide) (by decide) (by decide) rfl
  ⟨h.1, h.2 (by decide) (by decide)⟩

theorem checkAll_obj (keys : List String) (d : Doc) :
    checkAll keys (.obj d) = some (keys.all (fun k => dictContains d k)) := by
  induction keys with
  | nil => rfl
  | cons k rest ih =>
    simp only [checkAll, pyIn]
    cases hc : dictContains d k with
    | false => simp [List.all_cons, hc]
    | true => simp [List.all_cons, hc, ih]

theorem checkColorList_iff (colors : List Value) :
    checkColorList colors = some true ↔ colors.all isHexValue = true := by
  induction colors with
  | nil => simp [checkColorList]
  | cons c rest ih =>
    cases c with
    | str s =>
      simp only [checkColorList, isHexColorVal]
      cases hs : isHexColorStr s with
      | false => simp [List.all_cons, isHexValue, hs]
      | true => simp [List.all_cons, isHexValue, hs, ih]
    | null => simp [checkColorList, isHexColorVal, isHexValue]
    | bool b => simp [checkColorList, isHexColorVal, isHexValue]
    | int n => simp [checkColorList, isHexColorVal, isHexValue]
    | list l => simp [checkColorList, isHexColorVal, isHexValue]
    | obj o => simp [checkColorList, isHexColorVal, isHexValue]

theorem all_map_snd {α : Type} (o : List (α × Value)) (p : Value → Bool) :
    (o.map (fun kv => kv.2)).all p = o.all (fun kv => p kv.2) := by
  induction o with
  | nil => rfl
  | cons kv rest ih => simp [List.all_cons, ih]

theorem checkSections_iff (secs : List Value) :
    checkSections secs = some true ↔ secs.all isGoodSection = true := by
  induction secs with
  | nil => simp [checkSections]
  | cons sec rest ih =>
    cases sec with
    | obj o =>
      simp only [checkSections, pyValues]
      have hg : isGoodSection (.obj o) =
          (o.map (fun kv => kv.2)).all isHexValue := by
        show (o.all fun kv => isHexValue kv.2) =
          (o.map (fun kv => kv.2)).all isHexValue
        rw [all_map_snd]
      cases hcl : checkColorList (o.map (fun kv => kv.2)) with
      | none =>
        have hfalse : (o.map (fun kv => kv.2)).all isHexValue = false := by
          cases hx : (o.map (fun kv => kv.2)).all isHexValue with
          | false => rfl
          | true =>
            rw [(checkColorList_iff _).mpr hx] at hcl
            exact Option.noConfusion hcl
        simp [List.all_cons, hg, hfalse]
      | some b =>
        cases b with
        | false =>
          have hfalse : (o.map (fun kv => kv.2)).all isHexValue = false := by
            cases hx : (o.map (fun kv => kv.2)).all isHexValue with
            | false => rfl
            | true =>
              rw [(checkColorList_iff _).mpr hx] at hcl
              simp at hcl
          simp [List.all_cons, hg, hfalse]
        | true =>
          have htrue : (o.map (fun kv => kv.2)).all isHexValue = true :=
            (checkColorList_iff _).mp hcl
          simp [List.all_cons, hg, htrue, ih]
    | null => simp [checkSections, pyValues, isGoodSection]
    | bool b => simp [checkSections, pyValues, isGoodSection]
    | int n => simp [checkSections, pyValues, isGoodSection]
    | str s => simp [checkSections, pyValues, isGoodSection]
    | list l => simp [checkSections, pyValues, isGoodSection]

theorem mem_values_of_lookup (d : Doc) (k : String) (v : Value)
    (h : dictLookup d k = some v) : v ∈ d.map (fun kv => kv.2) := by
  unfold dictLookup at h
  cases hf : d.find? (fun kv => kv.1 = k) with
  | none =>
    rw [hf] at h
    exact Option.noConfusion h
  | some kv =>
    rw [hf] at h
    have h2 : kv.2 = v := Option.some.inj h
    have hmem := List.mem_of_find?_eq_some hf
    rw [← h2]
    exact List.mem_map_of_mem _ hmem

theorem spec_imp_ok (cs : Value) (h : specGoodColorScheme cs = true) :
    color_scheme_ok cs = true := by
  cases cs with
  | null => simp [specGoodColorScheme] at h
  | bool b => simp [specGoodColorScheme] at h
  | int n => simp [specGoodColorScheme] at h
  | str s => simp [specGoodColorScheme] at h
  | list xs => simp [specGoodColorScheme] at h
  | obj sections =>
    unfold specGoodColorScheme at h
    dsimp only at h
    cases hsub : dictLookup sections "submission_page" with
    | none =>
      rw [hsub] at h
      simp at h
    | some sv =>
      rw [hsub] at h
      cases sv with
      | null => simp at h
      | bool b => simp at h
      | int n => simp at h
      | str s => simp at h
      | list l => simp at h
      | obj sub =>
        cases hmos : dictLookup sections "mosaic_page" with
        | none =>
          rw [hmos] at h
          simp at h
        | some mv =>
          rw [hmos] at h
          cases mv with
          | null => simp at h
          | bool b => simp at h
          | int n => simp at h
          | str s => simp at h
          | list l => simp at h
          | obj mos =>
            simp only [Bool.and_eq_true] at h
            obtain ⟨hfs, hfm, hall⟩ := h
            unfold color_scheme_ok upload_checks
            have hc1 : dictContains sections "submission_page" = true := by
              rw [dictContains_eq_isSome, hsub]
              rfl
            have hc2 : dictContains sections "mosaic_page" = true := by
              rw [dictContains_eq_isSome, hmos]
              rfl
            have hsec : checkSections (sections.map (fun kv => kv.2)) =
                some true := by
              rw [checkSections_iff, all_map_snd]
              exact hall
            simp only [checkAll_obj, required_sections, List.all_cons,
              List.all_nil, hc1, hc2, Bool.and_true, Bool.and_self,
              pyGetItem, hsub, hmos, hfs, hfm, pyValues, hsec]
            rfl

theorem ok_imp_spec (cs : Value) (h : color_scheme_ok cs = true) :
    specGoodColorScheme cs = true := by
  unfold color_scheme_ok upload_checks at h
  cases cs with
  | null => simp [checkAll, required_sections, pyIn] at h
  | bool b => simp [checkAll, required_sections, pyIn] at h
  | int n => simp [checkAll, required_sections, pyIn] at h
  | str s =>
    cases h1 : checkAll required_sections (.str s) with
    | none =>
      rw [h1] at h
      simp at h
    | some b =>
      rw [h1] at h
      cases b with
      | false => simp at h
      | true => simp [pyGetItem] at h
  | list xs =>
    cases h1 : checkAll required_sections (.list xs) with
    | none =>
      rw [h1] at h
      simp at h
    | some b =>
      rw [h1] at h
      cases b with
      | false => simp at h
      | true => simp [pyGetItem] at h
  | obj sections =>
    rw [checkAll_obj] at h
    simp only [required_sections, List.all_cons, List.all_nil,
      Bool.and_true] at h
    cases hc1 : dictContains sections "submission_page" with
    | false =>
      rw [hc1] at h
      simp at h
    | true =>
      rw [hc1] at h
      cases hc2 : dictContains sections "mosaic_page" with
      | false =>
        rw [hc2] at h
        simp at h
      | true =>
        rw [hc2] at h
        obtain ⟨sv, hsub⟩ : ∃ sv,
            dictLookup sections "submission_page" = some sv := by
          rw [dictContains_eq_isSome] at hc1
          exact Option.isSome_iff_exists.mp hc1
        obtain ⟨mv, hmos⟩ : ∃ mv,
            dictLookup sections "mosaic_page" = some mv := by
          rw [dictContains_eq_isSome] at hc2
          exact Option.isSome_iff_exists.mp hc2
        simp only [Bool.and_self, pyGetItem, hsub, hmos] at h
        cases h2 : checkAll required_submission_fields sv with
        | none =>
          rw [h2] at h
          simp at h
        | some b2 =>
          rw [h2] at h
          cases b2 with
          | false => simp at h
          | true =>
            cases h3 : checkAll required_mosaic_fields mv with
            | none =>
              rw [h3] at h
              simp at h
            | some b3 =>
              rw [h3] at h
              cases b3 with
              | false => simp at h
              | true =>
                simp only [pyValues] at h
                have hsec : checkSections
                    (sections.map (fun kv => kv.2)) = some true := by
                  cases h4 : checkSections (sections.map (fun kv => kv.2)) with
                  | none =>
                    rw [h4] at h
                    simp at h
                  | some b4 =>
                    rw [h4] at h
                    cases b4 with
                    | false => simp at h
                    | true => rfl
                have hall : (sections.map (fun kv => kv.2)).all
                    isGoodSection = true := (checkSections_iff _).mp hsec
                have hallmem := List.all_eq_true.mp hall
                have hsvgood : isGoodSection sv = true := by
                  simpa using hallmem sv
                    (mem_values_of_lookup sections _ sv hsub)
                have hmvgood : isGoodSection mv = true := by
                  simpa using hallmem mv
                    (mem_values_of_lookup sections _ mv hmos)
                cases sv with
                | null => simp [isGoodSection] at hsvgood
                | bool b => simp [isGoodSection] at hsvgood
                | int n => simp [isGoodSection] at hsvgood
                | str s => simp [isGoodSection] at hsvgood
                | list l => simp [isGoodSection] at hsvgood
                | obj sub =>
                  cases mv with
                  | null => simp [isGoodSection] at hmvgood
                  | bool b => simp [isGoodSection] at hmvgood
                  | int n => simp [isGoodSection] at hmvgood
                  | str s => simp [isGoodSection] at hmvgood
                  | list l => simp [isGoodSection] at hmvgood
                  | obj mos =>
                    have hfs : required_submission_fields.all
                        (fun k => dictContains sub k) = true := by
                      rw [checkAll_obj] at h2
                      exact Option.some.inj h2
                    have hfm : required_mosaic_fields.all
                        (fun k => dictContains mos k) = true := by
                      rw [checkAll_obj] at h3
                      exact Option.some.inj h3
                    unfold specGoodColorScheme
                    dsimp only
                    rw [hsub, hmos]
                    simp only [hfs, hfm, Bool.true_and]
                    rw [← all_map_snd]
                    exact hall

/-- C9: an uploaded color-scheme document missing a required top-level
section, missing a required field within a section, or carrying any value
that is not a `#`-prefixed hexadecimal string is rejected with an error
and the persisted settings are left exactly as they were (no partial
update); a document passing all checks replaces the stored color
scheme. -/
theorem upload_color_scheme_correct (cs : Value) (settings : Doc) :
    (specGoodColorScheme cs = true →
      upload_color_scheme cs settings = dictSet settings "color_scheme" cs) ∧
      (specGoodColorScheme cs = false →
        upload_color_scheme cs settings = settings) := by
  constructor
  · intro h
    unfold upload_color_scheme
    rw [if_pos (spec_imp_ok cs h)]
  · intro h
    unfold upload_color_scheme
    have hne : ¬ (color_scheme_ok cs = true) := by
      intro hok
      have hsp := ok_imp_spec cs hok
      rw [h] at hsp
      exact Bool.false_ne_true hsp
    rw [if_neg hne]

/-- Witness for C9: the sample scheme passes the checks and is stored
into the default settings. -/
theorem upload_color_scheme_correct_witness :
    upload_color_scheme sampleColorScheme default_settings =
      dictSet default_settings "color_scheme" sampleColorScheme :=
  (upload_color_scheme_correct sampleColorScheme default_settings).1
    (by decide)
